import Mathlib

/-!
Verification development for the credit-scoring pipeline
(`credit_model.py`, `feature_repo/features.py`, `train_model.py`,
`loan_app_ui.py`).

The Python code is shallowly embedded:
* pandas `DataFrame`s become `Table` (a list of column names plus row-major
  cell lists); dictionaries of column → list-of-values become association
  lists; `dict.update`, `DataFrame.from_dict`, column selection, column
  drop and column-sorted reindexing are translated operation by operation.
* `sklearn.preprocessing.OrdinalEncoder` becomes `OrdinalEncoder`:
  `fit` stores, for every column, the sorted deduplicated vocabulary
  (numpy `unique`), and `transform` replaces each cell by the index of its
  value in that column's vocabulary, failing on a value that is absent
  (`handle_unknown` is left at its default `"error"`).  `fit` never
  consults the previous state: sklearn refits from scratch.
* `sklearn.tree.DecisionTreeClassifier` becomes `DecisionTreeClassifier`:
  a fitted state is a decision tree over feature indices together with the
  sorted distinct training labels (`classes_`) and the training width
  (`n_features`); the tree-building algorithm itself is irrelevant to the
  claims and is taken as a parameter `build` of `train`.
* Python exceptions become the `Except PyErr` monad.  `PyErr.notFittedError`
  models `sklearn.exceptions.NotFittedError` (the specification's
  `NotFitted`/`ModelNotTrained` failure kind), `PyErr.unknownCategory`
  models the `ValueError` raised by `OrdinalEncoder.transform` on a value
  missing from the fitted vocabulary (the specification's
  `UnknownCategory`), and `keyError`, `valueError`, `typeError`,
  `indexError` model the like-named Python exceptions.
* Numeric cell values and tree thresholds are modelled as integers; the
  floating-point representation is immaterial to every property proved
  here.
* `joblib.dump`/`joblib.load` are modelled by an explicit injective
  serialization into token lists, with the round-trip proved; the two
  feature-store calls are external collaborators and enter as parameters.
-/

/-- A Python cell value: a string or a number (numbers modelled as `Int`). -/
inductive Val where
  | s (v : String)
  | i (v : Int)
deriving DecidableEq, Repr

/-- Python/library failure kinds raised by the pipeline. -/
inductive PyErr where
  | keyError
  | valueError
  | typeError
  | indexError
  | notFittedError
  | unknownCategory
deriving DecidableEq, Repr

instance {ε α : Type} [DecidableEq ε] [DecidableEq α] : DecidableEq (Except ε α) :=
fun a b =>
  match a, b with
  | .error e, .error f =>
    if h : e = f then .isTrue (by rw [h]) else .isFalse (by simp [h])
  | .error _, .ok _ => .isFalse (by simp)
  | .ok _, .error _ => .isFalse (by simp)
  | .ok x, .ok y =>
    if h : x = y then .isTrue (by rw [h]) else .isFalse (by simp [h])

/-- Effectful map over a list in the `Except` monad, stopping at the first
failure, as a Python `for` loop raising out of the loop does. -/
def listMapE {α β : Type} (f : α → Except PyErr β) : List α → Except PyErr (List β)
  | [] => .ok []
  | a :: as => do
    let b ← f a
    let bs ← listMapE f as
    .ok (b :: bs)

/-- Lexicographic comparison of character lists by code point; this is the
order Python's `sorted` and numpy's sort use on strings. -/
def lexLe : List Char → List Char → Bool
  | [], _ => true
  | _ :: _, [] => false
  | a :: as, b :: bs =>
    if a.toNat < b.toNat then true
    else if b.toNat < a.toNat then false
    else lexLe as bs

/-- String comparison by code points, Python's `<=` on `str`. -/
def strLe (a b : String) : Bool := lexLe a.data b.data

/-- Python's `sorted` on a list of strings (ascending code-point order). -/
def pySorted (l : List String) : List String :=
  List.insertionSort (fun a b => strLe a b = true) l

/-- numpy `unique` on strings: the sorted list of distinct values.  Used by
`OrdinalEncoder.fit` to build each column's vocabulary. -/
def npUniqueStr (l : List String) : List String :=
  List.insertionSort (fun a b => strLe a b = true) l.dedup

/-- numpy `unique` on integers: the sorted list of distinct values.  Used by
`DecisionTreeClassifier.fit` to build `classes_`. -/
def npUniqueInt (l : List Int) : List Int :=
  List.insertionSort (fun a b : Int => a ≤ b) l.dedup

/-- A pandas `DataFrame`: named columns and row-major cells. -/
structure Table where
  cols : List String
  rows : List (List Val)
deriving DecidableEq, Repr

/-- First index of an element in a list (`list.index`, `Index.get_loc`). -/
def idxOf? {α : Type} [DecidableEq α] (c : α) : List α → Option Nat
  | [] => none
  | x :: xs => if x = c then some 0 else (idxOf? c xs).map (· + 1)

/-- Index of a column label (first occurrence), as pandas resolves labels. -/
def Table.colIdx (t : Table) (c : String) : Option Nat :=
  idxOf? c t.cols

/-- Cell lookup in a row, `IndexError` when out of range. -/
def cellAt (r : List Val) (j : Nat) : Except PyErr Val :=
  match r[j]? with
  | some v => .ok v
  | none => .error .indexError

/-- Models `Index.drop` plus column removal: drops the (first) column named `c`,
raising `KeyError` when the label is absent, as pandas does. -/
def Table.dropColumn (t : Table) (c : String) : Except PyErr Table :=
  match t.colIdx c with
  | none => .error .keyError
  | some j => .ok ⟨t.cols.erase c, t.rows.map (fun r => r.eraseIdx j)⟩

/-- Models `df[names]`: column selection/reindexing by a list of labels, raising
`KeyError` on a missing label. -/
def Table.selectCols (t : Table) (names : List String) : Except PyErr Table := do
  let idxs ← listMapE (fun c =>
    match t.colIdx c with
    | some j => Except.ok j
    | none => Except.error PyErr.keyError) names
  let rows ← listMapE (fun r => listMapE (cellAt r) idxs) t.rows
  .ok ⟨names, rows⟩

/-- Models `df.reindex(sorted(df.columns), axis=1)`: ascending column-name order. -/
def Table.reindexSorted (t : Table) : Except PyErr Table :=
  t.selectCols (pySorted t.cols)

/-- Models `pd.DataFrame.from_dict`: columns in key order; `ValueError` when the
value lists do not all have the same length. -/
def fromDict (d : List (String × List Val)) : Except PyErr Table :=
  let n := (d.head?.map (fun p => p.2.length)).getD 0
  if d.all (fun p => p.2.length = n) then
    .ok ⟨d.map Prod.fst,
         (List.range n).map (fun i => d.map (fun p => p.2.getD i (Val.i 0)))⟩
  else .error .valueError

/-- Key list of a column dictionary. -/
def dictKeys (d : List (String × List Val)) : List String := d.map Prod.fst

/-- Python `dict.update`: existing keys keep their position and take the
new value; keys new in `d2` are appended in `d2`'s order. -/
def dictUpdate (d1 d2 : List (String × List Val)) : List (String × List Val) :=
  d1.map (fun p =>
    match List.lookup p.1 d2 with
    | some v => (p.1, v)
    | none => p)
    ++ d2.filter (fun q => !((dictKeys d1).contains q.1))

/-- Writes the values `vs` into a row at the column positions `idxs`
(positional column assignment `df[names] = block`). -/
def writeBackRow (r : List Val) (idxs : List Nat) (vs : List Val) : List Val :=
  (idxs.zip vs).foldl (fun acc p => acc.set p.1 p.2) r

/-- Models `df[names] = block`: assigns a block of new values into the named,
already-existing columns, leaving every other column in place. -/
def setColumns (t : Table) (names : List String) (newRows : List (List Val)) :
    Except PyErr Table := do
  let idxs ← listMapE (fun c =>
    match t.colIdx c with
    | some j => Except.ok j
    | none => Except.error PyErr.keyError) names
  .ok ⟨t.cols, (t.rows.zip newRows).map (fun p => writeBackRow p.1 idxs p.2)⟩

/-- State of `sklearn.preprocessing.OrdinalEncoder`: `categories_` is absent
before `fit` and afterwards holds one sorted vocabulary per column. -/
structure OrdinalEncoder where
  categories_ : Option (List (List String))
deriving DecidableEq, Repr

/-- Reads a string cell; a non-string in a categorical column is a
`TypeError` from the underlying comparison. -/
def getStr : Val → Except PyErr String
  | .s v => .ok v
  | .i _ => .error .typeError

/-- Encodes one cell: the ordinal code is the index of the value in the
column's sorted vocabulary; an absent value raises (`handle_unknown`
defaults to `"error"`), never yielding a default code. -/
def encodeCell (vocab : List String) (v : Val) : Except PyErr Val := do
  let s ← getStr v
  match idxOf? s vocab with
  | some k => .ok (Val.i k)
  | none => .error .unknownCategory

/-- Encodes one row of the selected categorical block against the fitted
per-column vocabularies. -/
def encodeRow (cats : List (List String)) (r : List Val) : Except PyErr (List Val) :=
  if r.length = cats.length then
    listMapE (fun p => encodeCell p.1 p.2) (cats.zip r)
  else .error .valueError

/-- Models `OrdinalEncoder.fit`: computes each column's sorted distinct vocabulary
from the data alone.  sklearn's `fit` never consults the previous state:
calling it on an already-fitted encoder silently recomputes `categories_`. -/
def encoderFit (_self : OrdinalEncoder) (t : Table) : Except PyErr OrdinalEncoder := do
  let colVals ← listMapE (fun j => do
    let cells ← listMapE (fun r => cellAt r j) t.rows
    listMapE getStr cells) (List.range t.cols.length)
  .ok ⟨some (colVals.map npUniqueStr)⟩

/-- Models `OrdinalEncoder.transform` on the selected categorical block:
`NotFittedError` before `fit`, `ValueError` on a width mismatch, and
otherwise each cell is encoded independently. -/
def encoderTransform (enc : OrdinalEncoder) (t : Table) : Except PyErr Table :=
  match enc.categories_ with
  | none => .error .notFittedError
  | some cats =>
    if cats.length = t.cols.length then do
      let rows ← listMapE (encodeRow cats) t.rows
      .ok ⟨t.cols, rows⟩
    else .error .valueError

/-- A fitted decision tree: internal nodes compare feature `j` against a
threshold (left on `≤`), leaves index into `classes_`. -/
inductive DTree where
  | leaf (k : Nat)
  | node (j : Nat) (thr : Int) (l r : DTree)
deriving DecidableEq, Repr

/-- The fitted state of `sklearn.tree.DecisionTreeClassifier`: training
width, sorted distinct labels, and the learned tree. -/
structure FittedTree where
  n_features : Nat
  classes_ : List Int
  tree : DTree
deriving DecidableEq, Repr

/-- State of `DecisionTreeClassifier`: the `tree_` fit marker is absent until `fit`. -/
structure DecisionTreeClassifier where
  fitted : Option FittedTree
deriving DecidableEq, Repr

/-- Reads a numeric cell; a string where a number is required is the
`ValueError` sklearn raises converting input for `predict`. -/
def valNum : Val → Except PyErr Int
  | .i v => .ok v
  | .s _ => .error .valueError

/-- Evaluates a decision tree on one row. -/
def evalTree (classes : List Int) (r : List Val) : DTree → Except PyErr Int
  | .leaf k =>
    match classes[k]? with
    | some c => .ok c
    | none => .error .indexError
  | .node j thr l rt => do
    let v ← cellAt r j
    let x ← valNum v
    if x ≤ thr then evalTree classes r l else evalTree classes r rt

/-- Models `DecisionTreeClassifier.predict`: `NotFittedError` before `fit`,
`ValueError` on a feature-count mismatch, otherwise one label per row. -/
def clfPredict (c : DecisionTreeClassifier) (t : Table) : Except PyErr (List Int) :=
  match c.fitted with
  | none => .error .notFittedError
  | some f =>
    if f.n_features = t.cols.length then
      listMapE (fun r => evalTree f.classes_ r f.tree) t.rows
    else .error .valueError

/-- Models `DecisionTreeClassifier.fit`: records the training width and the sorted
distinct labels; the CART tree construction itself is the parameter
`build`. -/
def clfFit (build : Table → List Int → DTree) (X : Table) (y : List Int) :
    Except PyErr DecisionTreeClassifier :=
  if X.rows.length = y.length && !y.isEmpty then
    .ok ⟨some ⟨X.cols.length, npUniqueInt y, build X y⟩⟩
  else .error .valueError

/-- Structural well-formedness of a tree for a given feature count and
class count; `sklearn`'s fitted trees satisfy it by construction. -/
def DTree.wf (nf ncls : Nat) : DTree → Bool
  | .leaf k => decide (k < ncls)
  | .node j _ l r => decide (j < nf) && l.wf nf ncls && r.wf nf ncls

/-- Serialization token: the persisted artifacts are flat token lists. -/
inductive Tok where
  | n (v : Nat)
  | z (v : Int)
  | s (v : String)
deriving DecidableEq, Repr

/-- Encodes an integer list with a length header. -/
def encodeInts (l : List Int) : List Tok :=
  .n l.length :: l.map .z

/-- Decodes `k` integers, returning the remaining tokens. -/
def decodeInts : Nat → List Tok → Option (List Int × List Tok)
  | 0, toks => some ([], toks)
  | k + 1, .z v :: toks => do
    let (l, rest) ← decodeInts k toks
    some (v :: l, rest)
  | _ + 1, _ => none

/-- Encodes a string list with a length header. -/
def encodeStrs (l : List String) : List Tok :=
  .n l.length :: l.map .s

/-- Decodes `k` strings, returning the remaining tokens. -/
def decodeStrs : Nat → List Tok → Option (List String × List Tok)
  | 0, toks => some ([], toks)
  | k + 1, .s v :: toks => do
    let (l, rest) ← decodeStrs k toks
    some (v :: l, rest)
  | _ + 1, _ => none

/-- Encodes a list of string lists with a length header. -/
def encodeStrss (l : List (List String)) : List Tok :=
  .n l.length :: l.foldr (fun a acc => encodeStrs a ++ acc) []

/-- Decodes `k` string lists, returning the remaining tokens. -/
def decodeStrss : Nat → List Tok → Option (List (List String) × List Tok)
  | 0, toks => some ([], toks)
  | k + 1, .n m :: toks => do
    let (a, rest) ← decodeStrs m toks
    let (l, rest2) ← decodeStrss k rest
    some (a :: l, rest2)
  | _ + 1, _ => none

/-- Preorder encoding of a decision tree. -/
def encodeTree : DTree → List Tok
  | .leaf k => [.n 0, .n k]
  | .node j thr l r => .n 1 :: .n j :: .z thr :: (encodeTree l ++ encodeTree r)

/-- Node count of a tree, a fuel bound for decoding. -/
def DTree.size : DTree → Nat
  | .leaf _ => 1
  | .node _ _ l r => 1 + l.size + r.size

/-- Fuelled decoder for the preorder tree encoding. -/
def decodeTree : Nat → List Tok → Option (DTree × List Tok)
  | 0, _ => none
  | _ + 1, .n 0 :: .n k :: toks => some (.leaf k, toks)
  | fuel + 1, .n 1 :: .n j :: .z thr :: toks => do
    let (l, rest) ← decodeTree fuel toks
    let (r, rest2) ← decodeTree fuel rest
    some (.node j thr l r, rest2)
  | _ + 1, _ => none

/-- Models `joblib.dump` of the encoder state (`encoder.bin`). -/
def joblib_dump_enc (e : OrdinalEncoder) : List Tok :=
  match e.categories_ with
  | none => [.n 0]
  | some cats => .n 1 :: encodeStrss cats

/-- Models `joblib.load` of the encoder state. -/
def joblib_load_enc (toks : List Tok) : Option OrdinalEncoder :=
  match toks with
  | [.n 0] => some ⟨none⟩
  | .n 1 :: rest => do
    let (cats, rest2) ← decodeStrss ((rest.headD (.n 0)).casesOn (fun v => v) (fun _ => 0) (fun _ => 0)) rest.tail
    match rest2 with
    | [] => some ⟨some cats⟩
    | _ => none
  | _ => none

/-- Models `joblib.dump` of the classifier state (`model.bin`). -/
def joblib_dump_clf (c : DecisionTreeClassifier) : List Tok :=
  match c.fitted with
  | none => [.n 0]
  | some f => .n 1 :: .n f.n_features :: (encodeInts f.classes_ ++ encodeTree f.tree)

/-- Models `joblib.load` of the classifier state. -/
def joblib_load_clf (toks : List Tok) : Option DecisionTreeClassifier :=
  match toks with
  | [.n 0] => some ⟨none⟩
  | .n 1 :: .n nf :: .n ncls :: rest => do
    let (classes, rest2) ← decodeInts ncls rest
    let (tr, rest3) ← decodeTree rest2.length rest2
    match rest3 with
    | [] => some ⟨some ⟨nf, classes, tr⟩⟩
    | _ => none
  | _ => none

/-- The categorical features requiring encoding (`CreditScoringModel`). -/
def categorical_features : List String :=
  ["person_home_ownership", "loan_intent", "city", "state", "location_type"]

/-- The Feast feature references fetched per entity (`CreditScoringModel`). -/
def feast_features : List String :=
  ["zipcode_features:city", "zipcode_features:state",
   "zipcode_features:location_type", "zipcode_features:tax_returns_filed",
   "zipcode_features:population", "zipcode_features:total_wages",
   "credit_history:credit_card_due", "credit_history:mortgage_due",
   "credit_history:student_loan_due", "credit_history:vehicle_loan_due",
   "credit_history:hard_pulls", "credit_history:missed_payments_2y",
   "credit_history:missed_payments_1y", "credit_history:missed_payments_6m",
   "credit_history:bankruptcies", "total_debt_calc:total_debt_due"]

/-- The feature-view-stripped column names under which the Feast features
appear in retrieved frames (`to_df`/`to_dict` drop the view prefix). -/
def feastColNames : List String :=
  ["city", "state", "location_type", "tax_returns_filed", "population",
   "total_wages", "credit_card_due", "mortgage_due", "student_loan_due",
   "vehicle_loan_due", "hard_pulls", "missed_payments_2y",
   "missed_payments_1y", "missed_payments_6m", "bankruptcies",
   "total_debt_due"]

/-- The training label column (`CreditScoringModel.target`). -/
def target : String := "loan_status"

/-- The in-memory pipeline state: a classifier and an encoder
(`CreditScoringModel.__init__` fields). -/
structure CreditScoringModel where
  classifier : DecisionTreeClassifier
  encoder : OrdinalEncoder
deriving DecidableEq, Repr

/-- Models `CreditScoringModel.__init__`: load each persisted artifact when its
file exists, otherwise initialize a fresh unfitted component. -/
def initModel (model_bin encoder_bin : Option (List Tok)) : CreditScoringModel :=
  { classifier := (model_bin.bind joblib_load_clf).getD ⟨none⟩,
    encoder := (encoder_bin.bind joblib_load_enc).getD ⟨none⟩ }

/-- Models `check_is_fitted(classifier, "tree_")`: succeeds exactly when the fit
marker is present, otherwise raises `NotFittedError`. -/
def check_is_fitted (c : DecisionTreeClassifier) : Except PyErr Unit :=
  if c.fitted.isSome then .ok () else .error .notFittedError

/-- Models `CreditScoringModel.is_model_trained`: `check_is_fitted` guarded by
`except NotFittedError`.  On a genuine `DecisionTreeClassifier` the only
possible failure is `NotFittedError`, so the catch is exhaustive here. -/
def is_model_trained (m : CreditScoringModel) : Bool :=
  match check_is_fitted m.classifier with
  | .ok _ => true
  | .error _ => false

/-- An object decoded from a persisted blob.  A pickle can reconstruct an
arbitrary object, so a corrupted `model.bin` may yield a non-estimator. -/
inductive LoadedObject where
  | est (c : DecisionTreeClassifier)
  | nonEstimator
deriving DecidableEq, Repr

/-- Models `check_is_fitted` on an arbitrary loaded object: sklearn raises
`TypeError` when the argument is not an estimator instance. -/
def loaded_check_is_fitted : LoadedObject → Except PyErr Unit
  | .est c => check_is_fitted c
  | .nonEstimator => .error .typeError

/-- Models `is_model_trained` over an arbitrary loaded classifier object: the
`try`/`except NotFittedError` of the source catches only `NotFittedError`;
any other exception propagates to the caller. -/
def loaded_is_model_trained (o : LoadedObject) : Except PyErr Bool :=
  match loaded_check_is_fitted o with
  | .ok _ => .ok true
  | .error .notFittedError => .ok false
  | .error e => .error e

/-- Models `CreditScoringModel._fit_ordinal_encoder`: selects the categorical
columns, fits the encoder on them, and persists the fitted state
(`joblib.dump(self.encoder, self.encoder_filename)`). -/
def fit_ordinal_encoder (self : OrdinalEncoder) (t : Table) :
    Except PyErr (OrdinalEncoder × List Tok) := do
  let sel ← t.selectCols categorical_features
  let enc ← encoderFit self sel
  .ok (enc, joblib_dump_enc enc)

/-- Models `CreditScoringModel._apply_ordinal_encoding`: selects the categorical
columns, transforms them through the fitted encoder, and assigns the codes
back into the same columns of the passed frame.  The source performs the
assignment in place on its argument; the returned table is the caller's
frame as it stands after the call. -/
def apply_ordinal_encoding (enc : OrdinalEncoder) (t : Table) : Except PyErr Table := do
  let sel ← t.selectCols categorical_features
  let tr ← encoderTransform enc sel
  setColumns t categorical_features tr.rows

/-- Models `CreditScoringModel._get_training_features`: the historical join is the
external collaborator `hs` (Feast `get_historical_features(...).to_df()`);
then the encoder is fitted and applied, the target, timestamp and
identifier columns are dropped, the remaining columns are sorted, and the
label column is extracted.  Returns `train_X`, `train_Y`, the fitted
encoder and its persisted artifact. -/
def get_training_features (hs : Table → List String → Table)
    (self_encoder : OrdinalEncoder) (loans : Table) :
    Except PyErr (Table × List Val × OrdinalEncoder × List Tok) := do
  let training_df := hs loans feast_features
  let (enc, encArt) ← fit_ordinal_encoder self_encoder training_df
  let encoded_df ← apply_ordinal_encoding enc training_df
  let d1 ← encoded_df.dropColumn target
  let d2 ← d1.dropColumn "event_timestamp"
  let d3 ← d2.dropColumn "created_timestamp"
  let d4 ← d3.dropColumn "loan_id"
  let d5 ← d4.dropColumn "zipcode"
  let d6 ← d5.dropColumn "dob_ssn"
  let train_X ← d6.reindexSorted
  let yIdx ← (match encoded_df.colIdx target with
    | some j => Except.ok j
    | none => Except.error PyErr.keyError)
  let train_Y ← listMapE (fun r => cellAt r yIdx) encoded_df.rows
  .ok (train_X, train_Y, enc, encArt)

/-- Models `CreditScoringModel.train`: builds the training features, fits the
classifier on the column-sorted view, and persists it.  Returns the
updated pipeline state and the two written artifacts
(`model.bin`, `encoder.bin`). -/
def train (build : Table → List Int → DTree) (hs : Table → List String → Table)
    (m : CreditScoringModel) (loans : Table) :
    Except PyErr (CreditScoringModel × List Tok × List Tok) := do
  let (train_X, train_Y, enc, encArt) ← get_training_features hs m.encoder loans
  let sortedX ← train_X.selectCols (pySorted train_X.cols)
  let y ← listMapE valNum train_Y
  let clf ← clfFit build sortedX y
  .ok ({ classifier := clf, encoder := enc }, joblib_dump_clf clf, encArt)

/-- Models the key extraction of `CreditScoringModel._get_online_features_from_feast`:
`request["zipcode"][0]`, `request["dob_ssn"][0]`, `request["loan_amnt"][0]`. -/
def get_entity_keys (request : List (String × List Val)) :
    Except PyErr (Val × Val × Val) := do
  let zs ← (match List.lookup "zipcode" request with
    | some l => Except.ok l
    | none => Except.error PyErr.keyError)
  let z ← cellAt zs 0
  let ds ← (match List.lookup "dob_ssn" request with
    | some l => Except.ok l
    | none => Except.error PyErr.keyError)
  let d ← cellAt ds 0
  let ls ← (match List.lookup "loan_amnt" request with
    | some l => Except.ok l
    | none => Except.error PyErr.keyError)
  let la ← cellAt ls 0
  .ok (z, d, la)

/-- The serving half of `CreditScoringModel.predict` after the dictionary
merge: build the frame, encode the categorical columns, sort the columns,
and drop the identifier columns.  This is the frame handed to the
classifier. -/
def assemble_serving_frame (m : CreditScoringModel)
    (features : List (String × List Val)) : Except PyErr Table := do
  let features_df ← fromDict features
  let encoded ← apply_ordinal_encoding m.encoder features_df
  let sorted_df ← encoded.reindexSorted
  let d1 ← sorted_df.dropColumn "zipcode"
  let d2 ← d1.dropColumn "dob_ssn"
  .ok d2

/-- Models `CreditScoringModel.predict`: fetch the online features for the
request's entity keys (`fs` is the Feast online store, returning the
`to_dict` of `get_online_features`), merge them over a copy of the
request, assemble and encode the serving frame, predict, and return the
first row's label (`features_df["prediction"].iloc[0]`). -/
def predict (fs : Val → Val → Val → List (String × List Val))
    (m : CreditScoringModel) (request : List (String × List Val)) :
    Except PyErr Int := do
  let (z, d, la) ← get_entity_keys request
  let feature_vector := fs z d la
  let features := dictUpdate request feature_vector
  let frame ← assemble_serving_frame m features
  let preds ← clfPredict m.classifier frame
  match preds[0]? with
  | some p => .ok p
  | none => .error .indexError

/-! ### Auxiliary definitions for the verification -/

/-- What `_apply_ordinal_encoding` does to one row, as a function of that
row alone (given the frame's column layout and the encoder state): pick
the categorical cells, encode them, write the codes back in place. -/
def rowTransform (enc : OrdinalEncoder) (cols : List String) (r : List Val) :
    Except PyErr (List Val) := do
  let idxs ← listMapE (fun c =>
    match idxOf? c cols with
    | some j => Except.ok j
    | none => Except.error PyErr.keyError) categorical_features
  let cells ← listMapE (cellAt r) idxs
  let cats ← (match enc.categories_ with
    | some cs => Except.ok cs
    | none => Except.error PyErr.notFittedError)
  let encoded ← encodeRow cats cells
  .ok (writeBackRow r idxs encoded)

/-- Whether a cell holds a string. -/
def Val.isStr : Val → Bool
  | .s _ => true
  | .i _ => false

/-- Whether a (vocabulary, cell) pair is a string cell whose value is
missing from the vocabulary — the condition under which
`OrdinalEncoder.transform` raises on that cell. -/
def unknownHit (vocab : List String) (v : Val) : Bool :=
  match v with
  | .s s => decide (s ∉ vocab)
  | .i _ => false

/-- A well-formed single-row loan request, exactly the mapping the UI
builds in `loan_app_ui.get_loan_request` (each value a one-element list;
the float-typed fields are modelled as integers). -/
def uiRequest (zip : Int) (dob : String) (age income : Int) (own : String)
    (emp : Int) (intent : String) (amnt : Int) (rate : Int) :
    List (String × List Val) :=
  [("zipcode", [Val.i zip]), ("dob_ssn", [Val.s dob]),
   ("person_age", [Val.i age]), ("person_income", [Val.i income]),
   ("person_home_ownership", [Val.s own]),
   ("person_emp_length", [Val.i emp]), ("loan_intent", [Val.s intent]),
   ("loan_amnt", [Val.i amnt]), ("loan_int_rate", [Val.i rate])]

/-- A two-row loan request of the same shape (batch of two applications). -/
def uiRequest2 (zip1 zip2 : Int) (dob1 dob2 : String) (age1 age2 income1 income2 : Int)
    (own1 own2 : String) (emp1 emp2 : Int) (intent1 intent2 : String)
    (amnt1 amnt2 : Int) (rate1 rate2 : Int) : List (String × List Val) :=
  [("zipcode", [Val.i zip1, Val.i zip2]), ("dob_ssn", [Val.s dob1, Val.s dob2]),
   ("person_age", [Val.i age1, Val.i age2]),
   ("person_income", [Val.i income1, Val.i income2]),
   ("person_home_ownership", [Val.s own1, Val.s own2]),
   ("person_emp_length", [Val.i emp1, Val.i emp2]),
   ("loan_intent", [Val.s intent1, Val.s intent2]),
   ("loan_amnt", [Val.i amnt1, Val.i amnt2]),
   ("loan_int_rate", [Val.i rate1, Val.i rate2])]

/-- The `to_dict` of a Feast `get_online_features` response for one entity
row: the join/request keys echoed back plus the sixteen feature values
under their view-stripped names, each a one-element list. -/
def uiFeatureVector (zip dob amnt : Val) (city st loc : String)
    (tax pop wages ccd mtd sld vld hp mp2 mp1 mp6 bk tdd : Int) :
    List (String × List Val) :=
  [("zipcode", [zip]), ("dob_ssn", [dob]), ("loan_amnt", [amnt]),
   ("city", [Val.s city]), ("state", [Val.s st]), ("location_type", [Val.s loc]),
   ("tax_returns_filed", [Val.i tax]), ("population", [Val.i pop]),
   ("total_wages", [Val.i wages]), ("credit_card_due", [Val.i ccd]),
   ("mortgage_due", [Val.i mtd]), ("student_loan_due", [Val.i sld]),
   ("vehicle_loan_due", [Val.i vld]), ("hard_pulls", [Val.i hp]),
   ("missed_payments_2y", [Val.i mp2]), ("missed_payments_1y", [Val.i mp1]),
   ("missed_payments_6m", [Val.i mp6]), ("bankruptcies", [Val.i bk]),
   ("total_debt_due", [Val.i tdd])]

/-- The identifier/timestamp/label columns a training corpus carries on
top of the application attributes. -/
def bookkeepingCols : List String :=
  ["loan_id", "zipcode", "dob_ssn", "loan_status", "event_timestamp",
   "created_timestamp"]

/-- A concrete fitted encoder state (as if loaded from `encoder.bin`). -/
def encAlready : OrdinalEncoder :=
  ⟨some [["MORTGAGE", "OWN", "RENT"], ["EDUCATION", "PERSONAL"], ["Bend"],
         ["OR"], ["rural"]]⟩

/-- A concrete one-row categorical table with values outside `encAlready`'s
vocabularies. -/
def tblRefit : Table :=
  ⟨categorical_features,
   [[.s "OWN", .s "VENTURE", .s "Austin", .s "TX", .s "urban"]]⟩

/-- The encoder state that refitting on `tblRefit` produces. -/
def encRefit : OrdinalEncoder :=
  ⟨some [["OWN"], ["VENTURE"], ["Austin"], ["TX"], ["urban"]]⟩

/-- A concrete fitted encoder used by several examples. -/
def encC8 : OrdinalEncoder :=
  ⟨some [["OWN", "RENT"], ["PERSONAL"], ["Austin"], ["TX"], ["urban"]]⟩

/-- A one-row frame with an identifier column next to the categorical ones. -/
def tblC8 : Table :=
  ⟨["zipcode", "person_home_ownership", "loan_intent", "city", "state",
    "location_type"],
   [[.i 94109, .s "RENT", .s "PERSONAL", .s "Austin", .s "TX", .s "urban"]]⟩

/-- The table `tblC8` after in-place encoding by `encC8`. -/
def outC8 : Table :=
  ⟨tblC8.cols, [[.i 94109, .i 1, .i 0, .i 0, .i 0, .i 0]]⟩

/-- A two-row categorical table whose rows are identical. -/
def tblC6 : Table :=
  ⟨categorical_features,
   [[.s "RENT", .s "PERSONAL", .s "Austin", .s "TX", .s "urban"],
    [.s "RENT", .s "PERSONAL", .s "Austin", .s "TX", .s "urban"]]⟩

/-- The table `tblC6` after in-place encoding by `encC8`. -/
def outC6 : Table :=
  ⟨categorical_features,
   [[.i 1, .i 0, .i 0, .i 0, .i 0], [.i 1, .i 0, .i 0, .i 0, .i 0]]⟩

/-- A one-row categorical table with a `loan_intent` value absent from
`encC8`'s fitted vocabulary. -/
def tblC3 : Table :=
  ⟨categorical_features,
   [[.s "RENT", .s "VENTURE", .s "Austin", .s "TX", .s "urban"]]⟩

/-- The application-attribute columns of the example corpus, as in the
loan table of the repository. -/
def attrsEx : List String :=
  ["person_age", "person_income", "person_home_ownership", "person_emp_length",
   "loan_intent", "loan_amnt", "loan_int_rate"]

/-- A concrete one-row training corpus. -/
def loansEx : Table :=
  ⟨["loan_id", "zipcode", "dob_ssn", "loan_status", "event_timestamp",
    "created_timestamp", "person_age", "person_income", "person_home_ownership",
    "person_emp_length", "loan_intent", "loan_amnt", "loan_int_rate"],
   [[.i 1, .i 94109, .s "d1", .i 0, .i 100, .i 100,
     .i 25, .i 120000, .s "RENT", .i 12, .s "PERSONAL", .i 10000, .i 12]]⟩

/-- The corpus `loansEx` point-in-time joined with the Feast features: the historical
retrieval result for the example corpus. -/
def joinedEx : Table :=
  ⟨loansEx.cols ++ feastColNames,
   [[.i 1, .i 94109, .s "d1", .i 0, .i 100, .i 100,
     .i 25, .i 120000, .s "RENT", .i 12, .s "PERSONAL", .i 10000, .i 12,
     .s "SF", .s "CA", .s "urban", .i 100, .i 1000, .i 500,
     .i 5, .i 10, .i 2, .i 3, .i 1, .i 0, .i 0, .i 0, .i 0, .i 30]]⟩

/-- A concrete historical store returning `joinedEx`. -/
def hsEx : Table → List String → Table := fun _ _ => joinedEx

/-- A concrete (degenerate) tree builder standing in for CART. -/
def buildEx : Table → List Int → DTree := fun _ _ => DTree.leaf 0

/-- A concrete online store consistent with `joinedEx`. -/
def fsEx : Val → Val → Val → List (String × List Val) := fun z d la =>
  uiFeatureVector z d la "SF" "CA" "urban" 100 1000 500 5 10 2 3 1 0 0 0 0 30

/-- The encoder state that fitting on `joinedEx` produces. -/
def encEx : OrdinalEncoder :=
  ⟨some [["RENT"], ["PERSONAL"], ["SF"], ["CA"], ["urban"]]⟩

/-- The pipeline state after training on `loansEx` with `buildEx`. -/
def mEx : CreditScoringModel := ⟨⟨some ⟨23, [0], DTree.leaf 0⟩⟩, encEx⟩

/-- The example training request, matching `loansEx`'s attribute values. -/
def reqEx : List (String × List Val) :=
  uiRequest 94109 "d1" 25 120000 "RENT" 12 "PERSONAL" 10000 12

/-- The feature frame both paths produce on the example data: the batch
`train_X` of `loansEx` and the serving frame of `reqEx` coincide. -/
def servedEx : Table :=
  ⟨["bankruptcies", "city", "credit_card_due", "hard_pulls", "loan_amnt",
    "loan_int_rate", "loan_intent", "location_type", "missed_payments_1y",
    "missed_payments_2y", "missed_payments_6m", "mortgage_due", "person_age",
    "person_emp_length", "person_home_ownership", "person_income", "population",
    "state", "student_loan_due", "tax_returns_filed", "total_debt_due",
    "total_wages", "vehicle_loan_due"],
   [List.map Val.i
     [0, 0, 5, 1, 10000, 12, 0, 0, 0, 0, 0, 10, 25, 12, 0, 120000, 1000, 0, 2,
      100, 30, 500, 3]]⟩

/-! ### Toolkit: `Except` and `listMapE` inversion lemmas -/

theorem bind_ok_iff {α β : Type} {x : Except PyErr α} {f : α → Except PyErr β} {b : β} :
    (x >>= f) = .ok b ↔ ∃ a, x = .ok a ∧ f a = .ok b := by
  cases x <;> simp [Bind.bind, Except.bind]

theorem bind_error_of_error {α β : Type} {f : α → Except PyErr β} {e : PyErr} :
    ((Except.error e : Except PyErr α) >>= f) = .error e := rfl

theorem listMapE_ok_iff {α β : Type} {f : α → Except PyErr β} :
    ∀ {l : List α} {ys : List β},
      listMapE f l = .ok ys ↔ List.Forall₂ (fun a b => f a = .ok b) l ys := by
  intro l
  induction l with
  | nil =>
    intro ys
    simp only [listMapE, List.forall₂_nil_left_iff]
    constructor
    · intro h
      cases h
      rfl
    · intro h
      rw [h]
  | cons a l ih =>
    intro ys
    constructor
    · intro h
      simp only [listMapE] at h
      obtain ⟨b, hfa, h2⟩ := bind_ok_iff.mp h
      obtain ⟨cs, hml, h3⟩ := bind_ok_iff.mp h2
      cases h3
      exact List.Forall₂.cons hfa (ih.mp hml)
    · intro h
      cases h with
      | cons hfa hrest =>
        simp only [listMapE, hfa, ih.mpr hrest, Bind.bind, Except.bind]

theorem listMapE_ok_length {α β : Type} {f : α → Except PyErr β} {l : List α}
    {ys : List β} (h : listMapE f l = .ok ys) : ys.length = l.length :=
  (listMapE_ok_iff.mp h).length_eq.symm

theorem listMapE_ok_get {α β : Type} {f : α → Except PyErr β} :
    ∀ {l : List α} {ys : List β}, listMapE f l = .ok ys →
      ∀ {i : Nat} {a : α}, l[i]? = some a → ∃ b, ys[i]? = some b ∧ f a = .ok b := by
  intro l
  induction l with
  | nil =>
    intro ys _ i a ha
    simp at ha
  | cons x xs ih =>
    intro ys h i a ha
    simp only [listMapE] at h
    obtain ⟨b, hfa, h2⟩ := bind_ok_iff.mp h
    obtain ⟨cs, hml, h3⟩ := bind_ok_iff.mp h2
    cases h3
    cases i with
    | zero =>
      rw [List.getElem?_cons_zero] at ha
      cases ha
      exact ⟨b, List.getElem?_cons_zero, hfa⟩
    | succ n =>
      rw [List.getElem?_cons_succ] at ha
      obtain ⟨b2, hb2, hf2⟩ := ih hml ha
      exact ⟨b2, by simpa using hb2, hf2⟩

theorem listMapE_ok_of_forall {α β : Type} {f : α → Except PyErr β} :
    ∀ {l : List α}, (∀ a ∈ l, ∃ b, f a = .ok b) → ∃ ys, listMapE f l = .ok ys := by
  intro l
  induction l with
  | nil => exact fun _ => ⟨[], rfl⟩
  | cons x xs ih =>
    intro h
    obtain ⟨b, hb⟩ := h x (List.mem_cons_self x xs)
    obtain ⟨ys, hys⟩ := ih (fun a ha => h a (List.mem_cons_of_mem x ha))
    exact ⟨b :: ys, by simp only [listMapE, hb, hys, Bind.bind, Except.bind]⟩

theorem listMapE_error_of {α β : Type} {f : α → Except PyErr β} {e : PyErr} :
    ∀ {l : List α}, (∀ a ∈ l, (∃ b, f a = .ok b) ∨ f a = .error e) →
      (∃ a ∈ l, f a = .error e) → listMapE f l = .error e := by
  intro l
  induction l with
  | nil =>
    intro _ hex
    simp at hex
  | cons x xs ih =>
    intro hall hex
    rcases hall x (List.mem_cons_self x xs) with ⟨b, hb⟩ | hb
    · have hx : ∃ a ∈ xs, f a = .error e := by
        obtain ⟨a, ha, hfa⟩ := hex
        rcases List.mem_cons.mp ha with rfl | ha2
        · rw [hb] at hfa
          cases hfa
        · exact ⟨a, ha2, hfa⟩
      simp only [listMapE, hb, ih (fun a ha => hall a (List.mem_cons_of_mem x ha)) hx,
        Bind.bind, Except.bind]
    · simp only [listMapE, hb, Bind.bind, Except.bind]

/-! ### Toolkit: index and element lemmas -/

theorem idxOf?_getElem {α : Type} [DecidableEq α] {c : α} :
    ∀ {l : List α} {j : Nat}, idxOf? c l = some j → l[j]? = some c := by
  intro l
  induction l with
  | nil => intro j h; cases h
  | cons x xs ih =>
    intro j h
    by_cases hx : x = c
    · simp only [idxOf?, hx, if_pos rfl] at h
      cases h
      simp [hx]
    · simp only [idxOf?, if_neg hx] at h
      cases hj : idxOf? c xs with
      | none => rw [hj] at h; cases h
      | some j2 =>
        rw [hj] at h
        cases h
        simpa using ih hj

theorem idxOf?_of_mem {α : Type} [DecidableEq α] {c : α} :
    ∀ {l : List α}, c ∈ l → ∃ j, idxOf? c l = some j := by
  intro l
  induction l with
  | nil => intro h; cases h
  | cons x xs ih =>
    intro h
    by_cases hx : x = c
    · exact ⟨0, by simp [idxOf?, hx]⟩
    · rcases List.mem_cons.mp h with rfl | h2
      · exact absurd rfl hx
      · obtain ⟨j, hj⟩ := ih h2
        exact ⟨j + 1, by simp [idxOf?, hx, hj]⟩

theorem idxOf?_eq_none_of_not_mem {α : Type} [DecidableEq α] {c : α} :
    ∀ {l : List α}, c ∉ l → idxOf? c l = none := by
  intro l
  induction l with
  | nil => intro _; rfl
  | cons x xs ih =>
    intro h
    have hx : ¬x = c := fun he => h (he ▸ List.mem_cons_self x xs)
    simp [idxOf?, hx, ih (fun h2 => h (List.mem_cons_of_mem x h2))]

theorem mem_of_getElem?_some {α : Type} {l : List α} {i : Nat} {a : α}
    (h : l[i]? = some a) : a ∈ l := by
  obtain ⟨hlt, rfl⟩ := List.getElem?_eq_some.mp h
  exact List.getElem_mem hlt

theorem zip_getElem? {α β : Type} :
    ∀ (l1 : List α) (l2 : List β) (i : Nat),
      (l1.zip l2)[i]? = match l1[i]?, l2[i]? with
        | some a, some b => some (a, b)
        | _, _ => none := by
  intro l1
  induction l1 with
  | nil => intro l2 i; simp
  | cons a as ih =>
    intro l2 i
    cases l2 with
    | nil => simp
    | cons b bs =>
      cases i with
      | zero => simp [List.zip_cons_cons]
      | succ n => simpa [List.zip_cons_cons] using ih bs n

/-! ### Toolkit: the code-point order used by `sorted` -/

theorem lexLe_total : ∀ a b : List Char, lexLe a b = true ∨ lexLe b a = true := by
  intro a
  induction a with
  | nil => intro b; left; rfl
  | cons x xs ih =>
    intro b
    cases b with
    | nil => right; rfl
    | cons y ys =>
      rcases Nat.lt_trichotomy x.toNat y.toNat with h | h | h
      · left; simp [lexLe, h]
      · rcases ih ys with h2 | h2
        · left; simp [lexLe, h, Nat.lt_irrefl, h2]
        · right; simp [lexLe, h, Nat.lt_irrefl, h2]
      · right; simp [lexLe, h]

theorem lexLe_trans : ∀ a b c : List Char,
    lexLe a b = true → lexLe b c = true → lexLe a c = true := by
  intro a
  induction a with
  | nil => intro b c _ _; rfl
  | cons x xs ih =>
    intro b c hab hbc
    cases b with
    | nil => simp [lexLe] at hab
    | cons y ys =>
      cases c with
      | nil => simp [lexLe] at hbc
      | cons z zs =>
        rcases Nat.lt_trichotomy x.toNat y.toNat with h1 | h1 | h1
        · rcases Nat.lt_trichotomy y.toNat z.toNat with h2 | h2 | h2
          · simp [lexLe, Nat.lt_trans h1 h2]
          · simp [lexLe, h2 ▸ h1]
          · simp [lexLe, h2, Nat.lt_asymm h2] at hbc
        · rcases Nat.lt_trichotomy y.toNat z.toNat with h2 | h2 | h2
          · simp [lexLe, h1 ▸ h2]
          · have h3 : x.toNat = z.toNat := h1.trans h2
            simp only [lexLe, h1, Nat.lt_irrefl, if_false] at hab
            simp only [lexLe, h2, Nat.lt_irrefl, if_false] at hbc
            simp only [lexLe, h3, Nat.lt_irrefl, if_false]
            exact ih ys zs hab hbc
          · simp [lexLe, h2, Nat.lt_asymm h2] at hbc
        · simp [lexLe, h1, Nat.lt_asymm h1] at hab

theorem lexLe_antisymm : ∀ a b : List Char,
    lexLe a b = true → lexLe b a = true → a = b := by
  intro a
  induction a with
  | nil =>
    intro b _ hba
    cases b with
    | nil => rfl
    | cons y ys => simp [lexLe] at hba
  | cons x xs ih =>
    intro b hab hba
    cases b with
    | nil => simp [lexLe] at hab
    | cons y ys =>
      rcases Nat.lt_trichotomy x.toNat y.toNat with h1 | h1 | h1
      · simp [lexLe, h1, Nat.lt_asymm h1] at hba
      · simp only [lexLe, h1, Nat.lt_irrefl, if_false] at hab hba
        have hxy : x = y := Char.ext (UInt32.ext h1)
        rw [hxy, ih ys hab hba]
      · simp [lexLe, h1, Nat.lt_asymm h1] at hab

instance : IsTotal String (fun a b => strLe a b = true) :=
  ⟨fun a b => lexLe_total a.data b.data⟩

instance : IsTrans String (fun a b => strLe a b = true) :=
  ⟨fun a b c hab hbc => lexLe_trans a.data b.data c.data hab hbc⟩

instance : IsAntisymm String (fun a b => strLe a b = true) :=
  ⟨fun a b hab hba => String.ext (lexLe_antisymm a.data b.data hab hba)⟩

theorem pySorted_sorted (l : List String) :
    List.Sorted (fun a b => strLe a b = true) (pySorted l) :=
  List.sorted_insertionSort _ l

theorem pySorted_perm (l : List String) : (pySorted l).Perm l :=
  List.perm_insertionSort _ l

theorem pySorted_eq_of_perm {l1 l2 : List String} (h : l1.Perm l2) :
    pySorted l1 = pySorted l2 :=
  List.eq_of_perm_of_sorted ((pySorted_perm l1).trans (h.trans (pySorted_perm l2).symm))
    (pySorted_sorted l1) (pySorted_sorted l2)

theorem sorted_erase {l : List String} (c : String)
    (h : List.Sorted (fun a b => strLe a b = true) l) :
    List.Sorted (fun a b => strLe a b = true) (l.erase c) :=
  List.Pairwise.sublist (List.erase_sublist c l) h

/-! ### Toolkit: characterizations of the table operations -/

theorem selectCols_ok_elim {t : Table} {names : List String} {u : Table}
    (h : t.selectCols names = .ok u) :
    ∃ idxs rows, listMapE (fun c =>
        match t.colIdx c with
        | some j => Except.ok j
        | none => Except.error PyErr.keyError) names = .ok idxs ∧
      listMapE (fun r => listMapE (cellAt r) idxs) t.rows = .ok rows ∧
      u = ⟨names, rows⟩ := by
  simp only [Table.selectCols] at h
  obtain ⟨idxs, h1, h2⟩ := bind_ok_iff.mp h
  obtain ⟨rows, h3, h4⟩ := bind_ok_iff.mp h2
  cases h4
  exact ⟨idxs, rows, h1, h3, rfl⟩

theorem selectCols_ok_cols {t : Table} {names : List String} {u : Table}
    (h : t.selectCols names = .ok u) : u.cols = names := by
  obtain ⟨_, _, _, _, rfl⟩ := selectCols_ok_elim h
  rfl

theorem fromDict_ok_cols {d : List (String × List Val)} {t : Table}
    (h : fromDict d = .ok t) : t.cols = dictKeys d := by
  simp only [fromDict] at h
  split at h
  · cases h
    rfl
  · cases h

theorem dropColumn_ok_cols {t : Table} {c : String} {u : Table}
    (h : t.dropColumn c = .ok u) : u.cols = t.cols.erase c := by
  simp only [Table.dropColumn] at h
  split at h
  · cases h
  · cases h
    rfl

theorem setColumns_ok_elim {t : Table} {names : List String}
    {rs : List (List Val)} {u : Table} (h : setColumns t names rs = .ok u) :
    ∃ idxs, listMapE (fun c =>
        match t.colIdx c with
        | some j => Except.ok j
        | none => Except.error PyErr.keyError) names = .ok idxs ∧
      u = ⟨t.cols, (t.rows.zip rs).map (fun p => writeBackRow p.1 idxs p.2)⟩ := by
  simp only [setColumns] at h
  obtain ⟨idxs, h1, h2⟩ := bind_ok_iff.mp h
  cases h2
  exact ⟨idxs, h1, rfl⟩

theorem encoderTransform_ok_elim {enc : OrdinalEncoder} {t : Table} {u : Table}
    (h : encoderTransform enc t = .ok u) :
    ∃ cats rows, enc.categories_ = some cats ∧ cats.length = t.cols.length ∧
      listMapE (encodeRow cats) t.rows = .ok rows ∧ u = ⟨t.cols, rows⟩ := by
  obtain ⟨cats?⟩ := enc
  cases cats? with
  | none =>
    cases (show (Except.error PyErr.notFittedError : Except PyErr Table) = Except.ok u from h)
  | some cats =>
    rw [show encoderTransform ⟨some cats⟩ t
        = (if cats.length = t.cols.length then
            (do
              let rows ← listMapE (encodeRow cats) t.rows
              Except.ok (⟨t.cols, rows⟩ : Table))
          else .error .valueError) from rfl] at h
    split at h
    · obtain ⟨rows, h1, h2⟩ := bind_ok_iff.mp h
      cases h2
      exact ⟨cats, rows, rfl, by assumption, h1, rfl⟩
    · cases h

theorem apply_ok_elim {enc : OrdinalEncoder} {t : Table} {out : Table}
    (h : apply_ordinal_encoding enc t = .ok out) :
    ∃ sel tr, t.selectCols categorical_features = .ok sel ∧
      encoderTransform enc sel = .ok tr ∧
      setColumns t categorical_features tr.rows = .ok out := by
  simp only [apply_ordinal_encoding] at h
  obtain ⟨sel, h1, h2⟩ := bind_ok_iff.mp h
  obtain ⟨tr, h3, h4⟩ := bind_ok_iff.mp h2
  exact ⟨sel, tr, h1, h3, h4⟩

theorem apply_ok_cols {enc : OrdinalEncoder} {t : Table} {out : Table}
    (h : apply_ordinal_encoding enc t = .ok out) : out.cols = t.cols := by
  obtain ⟨sel, tr, h1, h2, h3⟩ := apply_ok_elim h
  obtain ⟨idxs, _, rfl⟩ := setColumns_ok_elim h3
  rfl

theorem apply_ok_pointwise {enc : OrdinalEncoder} {t : Table} {out : Table}
    (h : apply_ordinal_encoding enc t = .ok out) :
    out.cols = t.cols ∧ out.rows.length = t.rows.length ∧
      ∀ (i : Nat) (r : List Val), t.rows[i]? = some r →
        ∃ r2, rowTransform enc t.cols r = .ok r2 ∧ out.rows[i]? = some r2 := by
  obtain ⟨sel, tr, h1, h2, h3⟩ := apply_ok_elim h
  obtain ⟨idxs, selRows, hidxs, hselRows, rfl⟩ := selectCols_ok_elim h1
  obtain ⟨cats, trRows, hcats, hcatlen, htrRows, rfl⟩ := encoderTransform_ok_elim h2
  obtain ⟨idxs2, hidxs2, rfl⟩ := setColumns_ok_elim h3
  have hidxseq : idxs2 = idxs := by
    rw [hidxs] at hidxs2
    exact (Except.ok.injEq _ _).mp hidxs2.symm
  subst hidxseq
  have hlen1 : selRows.length = t.rows.length := listMapE_ok_length hselRows
  have hlen2 : trRows.length = selRows.length := listMapE_ok_length htrRows
  refine ⟨rfl, ?_, ?_⟩
  · simp [List.length_zip, hlen1, hlen2]
  · intro i r hr
    obtain ⟨cells, hcells, hfcells⟩ := listMapE_ok_get hselRows hr
    obtain ⟨encoded, hencoded, hfencoded⟩ := listMapE_ok_get htrRows hcells
    have hzip : (t.rows.zip trRows)[i]? = some (r, encoded) := by
      rw [zip_getElem?, hr, hencoded]
    refine ⟨writeBackRow r idxs2 encoded, ?_, ?_⟩
    · simp only [rowTransform]
      have hidxs2' : listMapE (fun c =>
          match idxOf? c t.cols with
          | some j => Except.ok j
          | none => Except.error PyErr.keyError) categorical_features = .ok idxs2 := by
        simpa only [Table.colIdx] using hidxs
      simp only [hidxs2', hcats, Bind.bind, Except.bind, hfcells, hfencoded]
    · rw [List.getElem?_map, hzip]
      rfl

theorem writeBackRow_nil_idxs (r : List Val) (vs : List Val) :
    writeBackRow r [] vs = r := rfl

theorem writeBackRow_nil_vs (r : List Val) (i : Nat) (is : List Nat) :
    writeBackRow r (i :: is) [] = r := rfl

theorem writeBackRow_cons (r : List Val) (i : Nat) (is : List Nat) (v : Val)
    (vs : List Val) : writeBackRow r (i :: is) (v :: vs) = writeBackRow (r.set i v) is vs := rfl

theorem writeBackRow_getElem_not_mem :
    ∀ (idxs : List Nat) (vs : List Val) (r : List Val) {j : Nat}, j ∉ idxs →
      (writeBackRow r idxs vs)[j]? = r[j]? := by
  intro idxs
  induction idxs with
  | nil => intro vs r j _; rfl
  | cons i is ih =>
    intro vs r j hj
    cases vs with
    | nil => rfl
    | cons v vs2 =>
      have hji : j ≠ i := fun he => hj (he ▸ List.mem_cons_self i is)
      have hjis : j ∉ is := fun he => hj (List.mem_cons_of_mem i he)
      rw [writeBackRow_cons, ih vs2 (r.set i v) hjis,
        List.getElem?_set_ne (fun he => hji he.symm)]

/-! ### Toolkit: decision-tree evaluation -/

theorem evalTree_mem {classes : List Int} {r : List Val} :
    ∀ {tr : DTree} {y : Int}, evalTree classes r tr = .ok y → y ∈ classes := by
  intro tr
  induction tr with
  | leaf k =>
    intro y h
    simp only [evalTree] at h
    cases hk : classes[k]? with
    | none => rw [hk] at h; cases h
    | some c =>
      rw [hk] at h
      cases h
      exact mem_of_getElem?_some hk
  | node j thr l rt ihl ihr =>
    intro y h
    simp only [evalTree] at h
    obtain ⟨v, hv, h2⟩ := bind_ok_iff.mp h
    obtain ⟨x, hx, h3⟩ := bind_ok_iff.mp h2
    by_cases hle : x ≤ thr
    · rw [if_pos hle] at h3
      exact ihl h3
    · rw [if_neg hle] at h3
      exact ihr h3

theorem evalTree_ok_of_wf {nf ncls : Nat} :
    ∀ {tr : DTree}, DTree.wf nf ncls tr = true →
      ∀ {r : List Val} {classes : List Int}, r.length = nf → classes.length = ncls →
        (∀ v ∈ r, ∃ x, v = Val.i x) →
        ∃ y, evalTree classes r tr = .ok y ∧ y ∈ classes := by
  intro tr
  induction tr with
  | leaf k =>
    intro hwf r classes hr hc hnum
    simp only [DTree.wf, decide_eq_true_eq] at hwf
    have hk : k < classes.length := hc ▸ hwf
    refine ⟨classes[k], ?_, List.getElem_mem hk⟩
    simp only [evalTree, List.getElem?_eq_getElem hk]
  | node j thr l rt ihl ihr =>
    intro hwf r classes hr hc hnum
    simp only [DTree.wf, Bool.and_eq_true, decide_eq_true_eq] at hwf
    obtain ⟨⟨hj, hwl⟩, hwr⟩ := hwf
    have hjr : j < r.length := hr ▸ hj
    have hcell : r[j]? = some r[j] := List.getElem?_eq_getElem hjr
    obtain ⟨x, hx⟩ := hnum r[j] (List.getElem_mem hjr)
    by_cases hle : x ≤ thr
    · obtain ⟨y, hy, hmem⟩ := ihl hwl hr hc hnum
      refine ⟨y, ?_, hmem⟩
      simp only [evalTree, Bind.bind, Except.bind, cellAt, hcell, hx, valNum, if_pos hle, hy]
    · obtain ⟨y, hy, hmem⟩ := ihr hwr hr hc hnum
      refine ⟨y, ?_, hmem⟩
      simp only [evalTree, Bind.bind, Except.bind, cellAt, hcell, hx, valNum, if_neg hle, hy]

/-! ### Toolkit: persisted-artifact round trips -/

theorem decodeInts_spec : ∀ (l : List Int) (rest : List Tok),
    decodeInts l.length (l.map .z ++ rest) = some (l, rest) := by
  intro l
  induction l with
  | nil => intro rest; rfl
  | cons v l ih =>
    intro rest
    simp only [List.length_cons, List.map_cons, List.cons_append, decodeInts,
      List.append_eq, ih, Option.bind_eq_bind, Option.some_bind]

theorem decodeStrs_spec : ∀ (l : List String) (rest : List Tok),
    decodeStrs l.length (l.map .s ++ rest) = some (l, rest) := by
  intro l
  induction l with
  | nil => intro rest; rfl
  | cons v l ih =>
    intro rest
    simp only [List.length_cons, List.map_cons, List.cons_append, decodeStrs,
      List.append_eq, ih, Option.bind_eq_bind, Option.some_bind]

theorem decodeStrss_spec : ∀ (cats : List (List String)) (rest : List Tok),
    decodeStrss cats.length
      (cats.foldr (fun a acc => encodeStrs a ++ acc) [] ++ rest) = some (cats, rest) := by
  intro cats
  induction cats with
  | nil => intro rest; rfl
  | cons a l ih =>
    intro rest
    have h1 : encodeStrs a ++ (List.foldr (fun b acc => encodeStrs b ++ acc) [] l ++ rest)
        = Tok.n a.length ::
          (a.map Tok.s ++ (List.foldr (fun b acc => encodeStrs b ++ acc) [] l ++ rest)) := by
      simp [encodeStrs]
    simp only [List.foldr_cons, List.append_assoc]
    rw [h1]
    simp only [List.length_cons, decodeStrss, decodeStrs_spec, ih,
      Option.bind_eq_bind, Option.some_bind]

theorem encodeTree_size_le : ∀ t : DTree, t.size ≤ (encodeTree t).length := by
  intro t
  induction t with
  | leaf k => simp [DTree.size, encodeTree]
  | node j thr l r ihl ihr =>
    simp only [DTree.size, encodeTree, List.length_cons, List.length_append]
    omega

theorem decodeTree_spec : ∀ (t : DTree) (fuel : Nat) (rest : List Tok),
    t.size ≤ fuel → decodeTree fuel (encodeTree t ++ rest) = some (t, rest) := by
  intro t
  induction t with
  | leaf k =>
    intro fuel rest hs
    cases fuel with
    | zero => simp [DTree.size] at hs
    | succ f => rfl
  | node j thr l r ihl ihr =>
    intro fuel rest hs
    cases fuel with
    | zero => simp [DTree.size] at hs
    | succ f =>
      simp only [DTree.size] at hs
      have hl : l.size ≤ f := by omega
      have hr : r.size ≤ f := by omega
      simp only [encodeTree, List.cons_append, List.append_eq, List.append_assoc,
        decodeTree, ihl f (encodeTree r ++ rest) hl, ihr f rest hr,
        Option.bind_eq_bind, Option.some_bind]

theorem joblib_enc_roundtrip (e : OrdinalEncoder) :
    joblib_load_enc (joblib_dump_enc e) = some e := by
  obtain ⟨cats?⟩ := e
  cases cats? with
  | none => rfl
  | some cats =>
    have hfold := decodeStrss_spec cats []
    rw [List.append_nil] at hfold
    simp [joblib_dump_enc, joblib_load_enc, encodeStrss, hfold]

theorem joblib_clf_roundtrip (c : DecisionTreeClassifier) :
    joblib_load_clf (joblib_dump_clf c) = some c := by
  obtain ⟨f?⟩ := c
  cases f? with
  | none => rfl
  | some f =>
    obtain ⟨nf, classes, tree⟩ := f
    have htree := decodeTree_spec tree (encodeTree tree).length []
      (encodeTree_size_le tree)
    rw [List.append_nil] at htree
    simp [joblib_dump_clf, joblib_load_clf, encodeInts, decodeInts_spec, htree]

/-! ### Further `listMapE` and encoder lemmas -/

theorem listMapE_ok_mem {α β : Type} {f : α → Except PyErr β} :
    ∀ {l : List α} {ys : List β}, listMapE f l = .ok ys →
      ∀ {b : β}, b ∈ ys → ∃ a ∈ l, f a = .ok b := by
  intro l
  induction l with
  | nil =>
    intro ys h b hb
    cases (show (Except.ok [] : Except PyErr (List β)) = .ok ys from h)
    cases hb
  | cons x xs ih =>
    intro ys h b hb
    simp only [listMapE] at h
    obtain ⟨b1, hfb1, h2⟩ := bind_ok_iff.mp h
    obtain ⟨cs, hml, h3⟩ := bind_ok_iff.mp h2
    cases h3
    rcases List.mem_cons.mp hb with rfl | hb2
    · exact ⟨x, List.mem_cons_self x xs, hfb1⟩
    · obtain ⟨a, ha, hfa⟩ := ih hml hb2
      exact ⟨a, List.mem_cons_of_mem x ha, hfa⟩

theorem listMapE_ok_or_error {α β : Type} {f : α → Except PyErr β} {e : PyErr} :
    ∀ {l : List α}, (∀ a ∈ l, (∃ b, f a = .ok b) ∨ f a = .error e) →
      (∃ ys, listMapE f l = .ok ys) ∨ listMapE f l = .error e := by
  intro l
  induction l with
  | nil => intro _; exact Or.inl ⟨[], rfl⟩
  | cons x xs ih =>
    intro hall
    rcases hall x (List.mem_cons_self x xs) with ⟨b, hb⟩ | hb
    · rcases ih (fun a ha => hall a (List.mem_cons_of_mem x ha)) with ⟨ys, hys⟩ | hys
      · exact Or.inl ⟨b :: ys, by simp only [listMapE, hb, hys, Bind.bind, Except.bind]⟩
      · exact Or.inr (by simp only [listMapE, hb, hys, Bind.bind, Except.bind])
    · exact Or.inr (by simp only [listMapE, hb, Bind.bind, Except.bind])

theorem selectCols_ok_row_length {t : Table} {names : List String} {u : Table}
    (h : t.selectCols names = .ok u) : ∀ r ∈ u.rows, r.length = names.length := by
  obtain ⟨idxs, rows, hidxs, hrows, rfl⟩ := selectCols_ok_elim h
  intro r hr
  obtain ⟨a, _, hfa⟩ := listMapE_ok_mem hrows hr
  rw [listMapE_ok_length hfa, listMapE_ok_length hidxs]

theorem encodeCell_ok_or_unknown {vocab : List String} {v : Val}
    (hv : v.isStr = true) :
    (∃ b, encodeCell vocab v = .ok b) ∨ encodeCell vocab v = .error .unknownCategory := by
  cases v with
  | i n => cases hv
  | s s =>
    cases hidx : idxOf? s vocab with
    | none =>
      exact Or.inr (by simp only [encodeCell, getStr, Bind.bind, Except.bind, hidx])
    | some k =>
      exact Or.inl ⟨Val.i k, by simp only [encodeCell, getStr, Bind.bind, Except.bind, hidx]⟩

theorem encodeCell_error_of_unknown {vocab : List String} {v : Val}
    (hv : unknownHit vocab v = true) :
    encodeCell vocab v = .error .unknownCategory := by
  cases v with
  | i n => cases hv
  | s s =>
    simp only [unknownHit, decide_eq_true_eq] at hv
    simp only [encodeCell, getStr, Bind.bind, Except.bind,
      idxOf?_eq_none_of_not_mem hv]

/-! ### The claims -/

/-- C10: `is_model_trained` inspects only the classifier's fit marker, so
two pipeline states sharing a classifier but differing in encoder state —
including a fitted classifier next to a fresh, never-fitted encoder —
report the same readiness, and a fitted classifier reports ready whatever
the encoder holds. -/
theorem claim_C10_readiness_ignores_encoder :
    (∀ (clf : DecisionTreeClassifier) (e1 e2 : OrdinalEncoder),
      is_model_trained ⟨clf, e1⟩ = is_model_trained ⟨clf, e2⟩) ∧
    (∀ (f : FittedTree) (e : OrdinalEncoder),
      is_model_trained ⟨⟨some f⟩, e⟩ = true) := by
  exact ⟨fun clf e1 e2 => rfl, fun f e => rfl⟩

/-- C9 counterexample: on a pipeline whose persisted blob decoded to a
non-estimator object (possible with a corrupted `model.bin`), the
`is_model_trained` of the source raises `TypeError` out of
`check_is_fitted` instead of returning `false`, because its
`try`/`except` catches only `NotFittedError`. -/
theorem claim_C9_cex_raises_on_non_estimator :
    loaded_is_model_trained .nonEstimator = .error .typeError := rfl

/-- C9 amended: `is_model_trained` returns a boolean and never raises
whenever the loaded classifier object is an estimator — `true` exactly
when the `tree_` fit marker is present (its structure is not validated) —
but on a non-estimator object decoded from corrupted persisted storage it
raises `TypeError` rather than returning `false`. -/
theorem claim_C9_is_model_trained_behavior :
    (∀ c : DecisionTreeClassifier,
      loaded_is_model_trained (.est c) = .ok c.fitted.isSome) ∧
    loaded_is_model_trained .nonEstimator = .error .typeError := by
  constructor
  · intro c
    obtain ⟨f?⟩ := c
    cases f? <;> rfl
  · rfl

/-- C7: loading the persisted artifacts written by save yields exactly the
saved encoder and classifier states, and a pipeline constructed from those
artifacts has the same `transform` and `predict` behavior as the original
on every input. -/
theorem claim_C7_roundtrip (c : DecisionTreeClassifier) (e : OrdinalEncoder) :
    joblib_load_clf (joblib_dump_clf c) = some c ∧
    joblib_load_enc (joblib_dump_enc e) = some e ∧
    initModel (some (joblib_dump_clf c)) (some (joblib_dump_enc e)) = ⟨c, e⟩ ∧
    (∀ t : Table, apply_ordinal_encoding
        (initModel (some (joblib_dump_clf c)) (some (joblib_dump_enc e))).encoder t
      = apply_ordinal_encoding e t) ∧
    (∀ (fs : Val → Val → Val → List (String × List Val))
        (request : List (String × List Val)),
      predict fs (initModel (some (joblib_dump_clf c)) (some (joblib_dump_enc e))) request
        = predict fs ⟨c, e⟩ request) := by
  have hinit : initModel (some (joblib_dump_clf c)) (some (joblib_dump_enc e))
      = ⟨c, e⟩ := by
    simp [initModel, joblib_clf_roundtrip, joblib_enc_roundtrip]
  exact ⟨joblib_clf_roundtrip c, joblib_enc_roundtrip e, hinit,
    fun t => by rw [hinit], fun fs r => by rw [hinit]⟩

/-- C5 counterexample: calling the encoder's fit through
`_fit_ordinal_encoder` on a wrapper whose state is already fit succeeds
and recomputes the state from the new table — it does not fail with an
`AlreadyFitted` failure — and the persisted artifact written as a side
effect is the dump of the new state, overwriting the previous one. -/
theorem claim_C5_cex :
    encAlready.categories_.isSome = true ∧
    fit_ordinal_encoder encAlready tblRefit = .ok (encRefit, joblib_dump_enc encRefit) ∧
    encRefit ≠ encAlready := by decide

/-- C5 amended: `_fit_ordinal_encoder` never consults the wrapper's prior
state — fitting from any two prior states gives identical results, so a
loaded, already-fit encoder is silently refit — and on success the
persisted artifact is the dump of the newly fitted state (an implicit
overwrite; no `AlreadyFitted` failure kind exists in the pipeline). -/
theorem claim_C5_fit_ignores_prior_state (e1 e2 : OrdinalEncoder) (t : Table) :
    fit_ordinal_encoder e1 t = fit_ordinal_encoder e2 t ∧
    (∀ (enc2 : OrdinalEncoder) (art : List Tok),
      fit_ordinal_encoder e1 t = .ok (enc2, art) → art = joblib_dump_enc enc2) := by
  constructor
  · rfl
  · intro enc2 art h
    simp only [fit_ordinal_encoder] at h
    obtain ⟨sel, h1, h2⟩ := bind_ok_iff.mp h
    obtain ⟨enc3, h3, h4⟩ := bind_ok_iff.mp h2
    cases h4
    rfl

/-- C5 witness: the amended statement applied to the concrete already-fit
encoder `encAlready` and the table `tblRefit`. -/
theorem claim_C5_witness :
    (joblib_dump_enc encRefit : List Tok) = joblib_dump_enc encRefit ∧
    fit_ordinal_encoder encAlready tblRefit = fit_ordinal_encoder ⟨none⟩ tblRefit := by
  have h := claim_C5_fit_ignores_prior_state encAlready ⟨none⟩ tblRefit
  exact ⟨h.2 encRefit (joblib_dump_enc encRefit) (by decide), h.1⟩

/-- C8 counterexample: `_apply_ordinal_encoding` assigns the codes into
the frame it was passed (the source's own comment says "in place"), so
after the call the caller's table differs from what it held before — the
transformation is not applied to a private copy.  (`predict` protects only
the caller's request mapping, by building a fresh frame from a copied
dictionary before encoding.) -/
theorem claim_C8_cex :
    apply_ordinal_encoding encC8 tblC8 = .ok outC8 ∧ outC8 ≠ tblC8 := by decide

/-- C8 amended: for every fitted encoder state and input table on which
the in-place transform succeeds, only the columns of the Categorical
Feature Set change: the column-name list (names and positions) is
preserved, and every cell of every column outside that set is unchanged;
the caller's frame itself, however, is mutated to the encoded table rather
than left untouched. -/
theorem claim_C8_frame (enc : OrdinalEncoder) (t out : Table)
    (h : apply_ordinal_encoding enc t = .ok out) :
    out.cols = t.cols ∧
    ∀ (j : Nat) (c : String), t.cols[j]? = some c → c ∉ categorical_features →
      ∀ i : Nat, (out.rows[i]?.bind (fun r => r[j]?))
        = (t.rows[i]?.bind (fun r => r[j]?)) := by
  obtain ⟨hcols, hlen, hpt⟩ := apply_ok_pointwise h
  refine ⟨hcols, ?_⟩
  intro j c hc hcnot i
  cases hr : t.rows[i]? with
  | none =>
    have hout : out.rows[i]? = none := by
      rw [List.getElem?_eq_none_iff] at hr ⊢
      rw [hlen]
      exact hr
    rw [hout]
  | some r =>
    obtain ⟨r2, hrt, hout⟩ := hpt i r hr
    rw [hout]
    simp only [Option.some_bind]
    simp only [rowTransform] at hrt
    obtain ⟨idxs, hidxs, h2⟩ := bind_ok_iff.mp hrt
    obtain ⟨cells, hcells, h3⟩ := bind_ok_iff.mp h2
    obtain ⟨cats, hcats, h4⟩ := bind_ok_iff.mp h3
    obtain ⟨encoded, henc2, h5⟩ := bind_ok_iff.mp h4
    cases h5
    apply writeBackRow_getElem_not_mem
    intro hjmem
    obtain ⟨c2, hc2mem, hfc2⟩ := listMapE_ok_mem hidxs hjmem
    have hidx2 : idxOf? c2 t.cols = some j := by
      cases hix : idxOf? c2 t.cols with
      | none => rw [hix] at hfc2; cases hfc2
      | some j2 =>
        rw [hix] at hfc2
        cases hfc2
        rfl
    have : t.cols[j]? = some c2 := idxOf?_getElem hidx2
    rw [hc] at this
    cases this
    exact hcnot hc2mem

/-- C8 witness: the amended frame property applied to the concrete frame
`tblC8` and encoder `encC8`: the identifier column `zipcode` is untouched
while the categorical block is encoded. -/
theorem claim_C8_witness :
    outC8.cols = tblC8.cols ∧
    (outC8.rows[0]?.bind (fun r => r[0]?)) = (tblC8.rows[0]?.bind (fun r => r[0]?)) := by
  have h := claim_C8_frame encC8 tblC8 outC8 (by decide)
  exact ⟨h.1, h.2 0 "zipcode" (by decide) (by decide) 0⟩

/-- C6: `_apply_ordinal_encoding` is deterministic — two invocations on
the same fitted state and input are identical — and the encoding of a row
depends only on that row's cell values, never on its position or on the
other rows, so a category value receives the same integer code in every
row and under every permutation of the input rows. -/
theorem claim_C6_determinism_and_row_independence :
    (∀ (enc : OrdinalEncoder) (t : Table) (o1 o2 : Except PyErr Table),
      apply_ordinal_encoding enc t = o1 → apply_ordinal_encoding enc t = o2 →
        o1 = o2) ∧
    (∀ (enc : OrdinalEncoder) (t1 t2 out1 out2 : Table) (i j : Nat) (r : List Val),
      apply_ordinal_encoding enc t1 = .ok out1 →
      apply_ordinal_encoding enc t2 = .ok out2 →
      t1.cols = t2.cols → t1.rows[i]? = some r → t2.rows[j]? = some r →
      out1.rows[i]? = out2.rows[j]?) := by
  constructor
  · intro enc t o1 o2 h1 h2
    rw [← h1, ← h2]
  · intro enc t1 t2 out1 out2 i j r h1 h2 hcols hr1 hr2
    obtain ⟨_, _, hpt1⟩ := apply_ok_pointwise h1
    obtain ⟨_, _, hpt2⟩ := apply_ok_pointwise h2
    obtain ⟨r2, hrt1, hout1⟩ := hpt1 i r hr1
    obtain ⟨r3, hrt2, hout2⟩ := hpt2 j r hr2
    rw [hcols] at hrt1
    rw [hrt1] at hrt2
    cases hrt2
    rw [hout1, hout2]

/-- C6 witness: on the concrete two-row table `tblC6` whose rows are equal,
the fitted encoder `encC8` produces equal encoded rows at both positions,
and repeated invocation yields the same result. -/
theorem claim_C6_witness :
    (Except.ok outC6 : Except PyErr Table) = .ok outC6 ∧
    outC6.rows[0]? = outC6.rows[1]? := by
  have h := claim_C6_determinism_and_row_independence
  refine ⟨h.1 encC8 tblC6 (.ok outC6) (.ok outC6) (by decide) (by decide), ?_⟩
  exact h.2 encC8 tblC6 tblC6 outC6 outC6 0 1
    [.s "RENT", .s "PERSONAL", .s "Austin", .s "TX", .s "urban"]
    (by decide) (by decide) rfl (by decide) (by decide)

/-- C3: for every fitted encoder state and every input table containing,
in some categorical column, a string value absent from that column's fit
vocabulary, the in-place transform fails with the unknown-category error
(the uncaught `ValueError` of `OrdinalEncoder.transform`, the
specification's `UnknownCategory`); it never returns an encoded table with
a substituted default code. -/
theorem claim_C3_unknown_category (enc : OrdinalEncoder) (cats : List (List String))
    (t sel : Table)
    (hcats : enc.categories_ = some cats)
    (hlen : cats.length = categorical_features.length)
    (hsel : t.selectCols categorical_features = .ok sel)
    (hstr : ∀ r ∈ sel.rows, ∀ v ∈ r, v.isStr = true)
    (hunk : ∃ r ∈ sel.rows, ∃ p ∈ cats.zip r, unknownHit p.1 p.2 = true) :
    apply_ordinal_encoding enc t = .error .unknownCategory := by
  have hrowlen : ∀ r ∈ sel.rows, r.length = cats.length := fun r hr =>
    (selectCols_ok_row_length hsel r hr).trans hlen.symm
  have hrowdich : ∀ r ∈ sel.rows,
      (∃ b, encodeRow cats r = .ok b) ∨ encodeRow cats r = .error .unknownCategory := by
    intro r hr
    have hcelldich : ∀ p ∈ cats.zip r,
        (∃ b, encodeCell p.1 p.2 = .ok b) ∨ encodeCell p.1 p.2 = .error .unknownCategory := by
      intro p hp
      exact encodeCell_ok_or_unknown (hstr r hr p.2 (List.of_mem_zip hp).2)
    rcases listMapE_ok_or_error hcelldich with ⟨ys, hys⟩ | hys
    · exact Or.inl ⟨ys, by simp only [encodeRow, if_pos (hrowlen r hr), hys]⟩
    · exact Or.inr (by simp only [encodeRow, if_pos (hrowlen r hr), hys])
  have hrowerr : ∃ r ∈ sel.rows, encodeRow cats r = .error .unknownCategory := by
    obtain ⟨r, hr, p, hp, hhit⟩ := hunk
    refine ⟨r, hr, ?_⟩
    have hcelldich : ∀ q ∈ cats.zip r,
        (∃ b, encodeCell q.1 q.2 = .ok b) ∨ encodeCell q.1 q.2 = .error .unknownCategory := by
      intro q hq
      exact encodeCell_ok_or_unknown (hstr r hr q.2 (List.of_mem_zip hq).2)
    have herr : listMapE (fun q => encodeCell q.1 q.2) (cats.zip r)
        = .error .unknownCategory :=
      listMapE_error_of hcelldich ⟨p, hp, encodeCell_error_of_unknown hhit⟩
    simp only [encodeRow, if_pos (hrowlen r hr), herr]
  have htr : encoderTransform enc sel = .error .unknownCategory := by
    obtain ⟨cats?⟩ := enc
    simp only at hcats
    cases hcats
    have hchk : cats.length = sel.cols.length := by
      rw [selectCols_ok_cols hsel]
      exact hlen
    have hrows : listMapE (encodeRow cats) sel.rows = .error .unknownCategory :=
      listMapE_error_of hrowdich hrowerr
    rw [show encoderTransform ⟨some cats⟩ sel
        = (if cats.length = sel.cols.length then
            (do
              let rows ← listMapE (encodeRow cats) sel.rows
              Except.ok (⟨sel.cols, rows⟩ : Table))
          else .error .valueError) from rfl]
    rw [if_pos hchk, hrows]
    rfl
  simp only [apply_ordinal_encoding, hsel, Bind.bind, Except.bind, htr]

/-- C3 witness: the concrete fitted encoder `encC8` rejects the table
`tblC3`, whose `loan_intent` value `VENTURE` is outside the fitted
vocabulary, with the unknown-category failure. -/
theorem claim_C3_witness :
    apply_ordinal_encoding encC8 tblC3 = .error .unknownCategory := by
  refine claim_C3_unknown_category encC8
    [["OWN", "RENT"], ["PERSONAL"], ["Austin"], ["TX"], ["urban"]] tblC3 tblC3
    (by decide) (by decide) (by decide) (by decide) ?_
  exact ⟨[.s "RENT", .s "VENTURE", .s "Austin", .s "TX", .s "urban"], by decide,
    (["PERSONAL"], .s "VENTURE"), by decide, by decide⟩

/-! ### The serving path on a well-formed UI request -/

theorem predict_ok_ui
    (fs : Val → Val → Val → List (String × List Val))
    (m : CreditScoringModel) (f : FittedTree)
    (zip : Int) (dob : String) (age income : Int) (own : String) (emp : Int)
    (intent : String) (amnt : Int) (rate : Int)
    (city st loc : String)
    (tax pop wages ccd mtd sld vld hp mp2 mp1 mp6 bk tdd : Int)
    (v1 v2 v3 v4 v5 : List String) (k1 k2 k3 k4 k5 : Nat)
    (hfs : fs (Val.i zip) (Val.s dob) (Val.i amnt) = uiFeatureVector (Val.i zip) (Val.s dob) (Val.i amnt) city st loc tax pop wages ccd mtd sld vld hp mp2 mp1 mp6 bk tdd)
    (hcats : m.encoder.categories_ = some [v1, v2, v3, v4, v5])
    (h1 : idxOf? own v1 = some k1) (h2 : idxOf? intent v2 = some k2)
    (h3 : idxOf? city v3 = some k3) (h4 : idxOf? st v4 = some k4)
    (h5 : idxOf? loc v5 = some k5)
    (hfit : m.classifier.fitted = some f)
    (hnf : f.n_features = 23)
    (hwf : DTree.wf 23 f.classes_.length f.tree = true) :
    ∃ y, predict fs m (uiRequest zip dob age income own emp intent amnt rate) = .ok y ∧ y ∈ f.classes_ := by
  have henc : m.encoder = ⟨some [v1, v2, v3, v4, v5]⟩ := by rw [← hcats]
  have hclf : m.classifier = ⟨some f⟩ := by rw [← hfit]
  have hc1 : encodeCell v1 (Val.s own) = .ok (Val.i k1) := by
    simp only [encodeCell, getStr, Bind.bind, Except.bind, h1]
  have hc2 : encodeCell v2 (Val.s intent) = .ok (Val.i k2) := by
    simp only [encodeCell, getStr, Bind.bind, Except.bind, h2]
  have hc3 : encodeCell v3 (Val.s city) = .ok (Val.i k3) := by
    simp only [encodeCell, getStr, Bind.bind, Except.bind, h3]
  have hc4 : encodeCell v4 (Val.s st) = .ok (Val.i k4) := by
    simp only [encodeCell, getStr, Bind.bind, Except.bind, h4]
  have hc5 : encodeCell v5 (Val.s loc) = .ok (Val.i k5) := by
    simp only [encodeCell, getStr, Bind.bind, Except.bind, h5]
  have hmerge : dictUpdate (uiRequest zip dob age income own emp intent amnt rate) (uiFeatureVector (Val.i zip) (Val.s dob) (Val.i amnt) city st loc tax pop wages ccd mtd sld vld hp mp2 mp1 mp6 bk tdd)
      = [("zipcode", [Val.i zip]), ("dob_ssn", [Val.s dob]), ("person_age", [Val.i age]), ("person_income", [Val.i income]), ("person_home_ownership", [Val.s own]), ("person_emp_length", [Val.i emp]), ("loan_intent", [Val.s intent]), ("loan_amnt", [Val.i amnt]), ("loan_int_rate", [Val.i rate]), ("city", [Val.s city]), ("state", [Val.s st]), ("location_type", [Val.s loc]), ("tax_returns_filed", [Val.i tax]), ("population", [Val.i pop]), ("total_wages", [Val.i wages]), ("credit_card_due", [Val.i ccd]), ("mortgage_due", [Val.i mtd]), ("student_loan_due", [Val.i sld]), ("vehicle_loan_due", [Val.i vld]), ("hard_pulls", [Val.i hp]), ("missed_payments_2y", [Val.i mp2]), ("missed_payments_1y", [Val.i mp1]), ("missed_payments_6m", [Val.i mp6]), ("bankruptcies", [Val.i bk]), ("total_debt_due", [Val.i tdd])] := rfl
  have hfrom : fromDict [("zipcode", [Val.i zip]), ("dob_ssn", [Val.s dob]), ("person_age", [Val.i age]), ("person_income", [Val.i income]), ("person_home_ownership", [Val.s own]), ("person_emp_length", [Val.i emp]), ("loan_intent", [Val.s intent]), ("loan_amnt", [Val.i amnt]), ("loan_int_rate", [Val.i rate]), ("city", [Val.s city]), ("state", [Val.s st]), ("location_type", [Val.s loc]), ("tax_returns_filed", [Val.i tax]), ("population", [Val.i pop]), ("total_wages", [Val.i wages]), ("credit_card_due", [Val.i ccd]), ("mortgage_due", [Val.i mtd]), ("student_loan_due", [Val.i sld]), ("vehicle_loan_due", [Val.i vld]), ("hard_pulls", [Val.i hp]), ("missed_payments_2y", [Val.i mp2]), ("missed_payments_1y", [Val.i mp1]), ("missed_payments_6m", [Val.i mp6]), ("bankruptcies", [Val.i bk]), ("total_debt_due", [Val.i tdd])]
      = .ok (⟨["zipcode", "dob_ssn", "person_age", "person_income", "person_home_ownership", "person_emp_length", "loan_intent", "loan_amnt", "loan_int_rate", "city", "state", "location_type", "tax_returns_filed", "population", "total_wages", "credit_card_due", "mortgage_due", "student_loan_due", "vehicle_loan_due", "hard_pulls", "missed_payments_2y", "missed_payments_1y", "missed_payments_6m", "bankruptcies", "total_debt_due"], [[Val.i zip, Val.s dob, Val.i age, Val.i income, Val.s own, Val.i emp, Val.s intent, Val.i amnt, Val.i rate, Val.s city, Val.s st, Val.s loc, Val.i tax, Val.i pop, Val.i wages, Val.i ccd, Val.i mtd, Val.i sld, Val.i vld, Val.i hp, Val.i mp2, Val.i mp1, Val.i mp6, Val.i bk, Val.i tdd]]⟩ : Table) := rfl
  have hsel : Table.selectCols (⟨["zipcode", "dob_ssn", "person_age", "person_income", "person_home_ownership", "person_emp_length", "loan_intent", "loan_amnt", "loan_int_rate", "city", "state", "location_type", "tax_returns_filed", "population", "total_wages", "credit_card_due", "mortgage_due", "student_loan_due", "vehicle_loan_due", "hard_pulls", "missed_payments_2y", "missed_payments_1y", "missed_payments_6m", "bankruptcies", "total_debt_due"], [[Val.i zip, Val.s dob, Val.i age, Val.i income, Val.s own, Val.i emp, Val.s intent, Val.i amnt, Val.i rate, Val.s city, Val.s st, Val.s loc, Val.i tax, Val.i pop, Val.i wages, Val.i ccd, Val.i mtd, Val.i sld, Val.i vld, Val.i hp, Val.i mp2, Val.i mp1, Val.i mp6, Val.i bk, Val.i tdd]]⟩ : Table) categorical_features
      = .ok (⟨categorical_features,
          [[Val.s own, Val.s intent, Val.s city, Val.s st, Val.s loc]]⟩ : Table) := rfl
  have hrowenc : encodeRow [v1, v2, v3, v4, v5]
      [Val.s own, Val.s intent, Val.s city, Val.s st, Val.s loc]
      = .ok [Val.i (k1 : Int), Val.i (k2 : Int), Val.i (k3 : Int), Val.i (k4 : Int),
             Val.i (k5 : Int)] := by
    rw [show encodeRow [v1, v2, v3, v4, v5]
          [Val.s own, Val.s intent, Val.s city, Val.s st, Val.s loc]
        = listMapE (fun p => encodeCell p.1 p.2)
            [(v1, Val.s own), (v2, Val.s intent), (v3, Val.s city), (v4, Val.s st),
             (v5, Val.s loc)] from rfl]
    simp only [listMapE, hc1, hc2, hc3, hc4, hc5, Bind.bind, Except.bind]
  have htrf : encoderTransform m.encoder (⟨categorical_features,
        [[Val.s own, Val.s intent, Val.s city, Val.s st, Val.s loc]]⟩ : Table)
      = .ok (⟨categorical_features,
          [[Val.i (k1 : Int), Val.i (k2 : Int), Val.i (k3 : Int), Val.i (k4 : Int),
            Val.i (k5 : Int)]]⟩ : Table) := by
    rw [henc]
    rw [show encoderTransform ⟨some [v1, v2, v3, v4, v5]⟩ (⟨categorical_features,
          [[Val.s own, Val.s intent, Val.s city, Val.s st, Val.s loc]]⟩ : Table)
        = (do
            let rows ← listMapE (encodeRow [v1, v2, v3, v4, v5])
              [[Val.s own, Val.s intent, Val.s city, Val.s st, Val.s loc]]
            Except.ok (⟨categorical_features, rows⟩ : Table)) from rfl]
    simp only [listMapE, hrowenc, Bind.bind, Except.bind]
  have happ : apply_ordinal_encoding m.encoder (⟨["zipcode", "dob_ssn", "person_age", "person_income", "person_home_ownership", "person_emp_length", "loan_intent", "loan_amnt", "loan_int_rate", "city", "state", "location_type", "tax_returns_filed", "population", "total_wages", "credit_card_due", "mortgage_due", "student_loan_due", "vehicle_loan_due", "hard_pulls", "missed_payments_2y", "missed_payments_1y", "missed_payments_6m", "bankruptcies", "total_debt_due"], [[Val.i zip, Val.s dob, Val.i age, Val.i income, Val.s own, Val.i emp, Val.s intent, Val.i amnt, Val.i rate, Val.s city, Val.s st, Val.s loc, Val.i tax, Val.i pop, Val.i wages, Val.i ccd, Val.i mtd, Val.i sld, Val.i vld, Val.i hp, Val.i mp2, Val.i mp1, Val.i mp6, Val.i bk, Val.i tdd]]⟩ : Table)
      = .ok (⟨["zipcode", "dob_ssn", "person_age", "person_income", "person_home_ownership", "person_emp_length", "loan_intent", "loan_amnt", "loan_int_rate", "city", "state", "location_type", "tax_returns_filed", "population", "total_wages", "credit_card_due", "mortgage_due", "student_loan_due", "vehicle_loan_due", "hard_pulls", "missed_payments_2y", "missed_payments_1y", "missed_payments_6m", "bankruptcies", "total_debt_due"], [[Val.i zip, Val.s dob, Val.i age, Val.i income, Val.i (k1 : Int), Val.i emp, Val.i (k2 : Int), Val.i amnt, Val.i rate, Val.i (k3 : Int), Val.i (k4 : Int), Val.i (k5 : Int), Val.i tax, Val.i pop, Val.i wages, Val.i ccd, Val.i mtd, Val.i sld, Val.i vld, Val.i hp, Val.i mp2, Val.i mp1, Val.i mp6, Val.i bk, Val.i tdd]]⟩ : Table) := by
    simp only [apply_ordinal_encoding, hsel, htrf, Bind.bind, Except.bind]
    rfl
  have hsort : Table.reindexSorted (⟨["zipcode", "dob_ssn", "person_age", "person_income", "person_home_ownership", "person_emp_length", "loan_intent", "loan_amnt", "loan_int_rate", "city", "state", "location_type", "tax_returns_filed", "population", "total_wages", "credit_card_due", "mortgage_due", "student_loan_due", "vehicle_loan_due", "hard_pulls", "missed_payments_2y", "missed_payments_1y", "missed_payments_6m", "bankruptcies", "total_debt_due"], [[Val.i zip, Val.s dob, Val.i age, Val.i income, Val.i (k1 : Int), Val.i emp, Val.i (k2 : Int), Val.i amnt, Val.i rate, Val.i (k3 : Int), Val.i (k4 : Int), Val.i (k5 : Int), Val.i tax, Val.i pop, Val.i wages, Val.i ccd, Val.i mtd, Val.i sld, Val.i vld, Val.i hp, Val.i mp2, Val.i mp1, Val.i mp6, Val.i bk, Val.i tdd]]⟩ : Table)
      = .ok (⟨["bankruptcies", "city", "credit_card_due", "dob_ssn", "hard_pulls", "loan_amnt", "loan_int_rate", "loan_intent", "location_type", "missed_payments_1y", "missed_payments_2y", "missed_payments_6m", "mortgage_due", "person_age", "person_emp_length", "person_home_ownership", "person_income", "population", "state", "student_loan_due", "tax_returns_filed", "total_debt_due", "total_wages", "vehicle_loan_due", "zipcode"], [[Val.i bk, Val.i (k3 : Int), Val.i ccd, Val.s dob, Val.i hp, Val.i amnt, Val.i rate, Val.i (k2 : Int), Val.i (k5 : Int), Val.i mp1, Val.i mp2, Val.i mp6, Val.i mtd, Val.i age, Val.i emp, Val.i (k1 : Int), Val.i income, Val.i pop, Val.i (k4 : Int), Val.i sld, Val.i tax, Val.i tdd, Val.i wages, Val.i vld, Val.i zip]]⟩ : Table) := rfl
  have hdz : Table.dropColumn (⟨["bankruptcies", "city", "credit_card_due", "dob_ssn", "hard_pulls", "loan_amnt", "loan_int_rate", "loan_intent", "location_type", "missed_payments_1y", "missed_payments_2y", "missed_payments_6m", "mortgage_due", "person_age", "person_emp_length", "person_home_ownership", "person_income", "population", "state", "student_loan_due", "tax_returns_filed", "total_debt_due", "total_wages", "vehicle_loan_due", "zipcode"], [[Val.i bk, Val.i (k3 : Int), Val.i ccd, Val.s dob, Val.i hp, Val.i amnt, Val.i rate, Val.i (k2 : Int), Val.i (k5 : Int), Val.i mp1, Val.i mp2, Val.i mp6, Val.i mtd, Val.i age, Val.i emp, Val.i (k1 : Int), Val.i income, Val.i pop, Val.i (k4 : Int), Val.i sld, Val.i tax, Val.i tdd, Val.i wages, Val.i vld, Val.i zip]]⟩ : Table) "zipcode"
      = .ok (⟨["bankruptcies", "city", "credit_card_due", "dob_ssn", "hard_pulls", "loan_amnt", "loan_int_rate", "loan_intent", "location_type", "missed_payments_1y", "missed_payments_2y", "missed_payments_6m", "mortgage_due", "person_age", "person_emp_length", "person_home_ownership", "person_income", "population", "state", "student_loan_due", "tax_returns_filed", "total_debt_due", "total_wages", "vehicle_loan_due"], [[Val.i bk, Val.i (k3 : Int), Val.i ccd, Val.s dob, Val.i hp, Val.i amnt, Val.i rate, Val.i (k2 : Int), Val.i (k5 : Int), Val.i mp1, Val.i mp2, Val.i mp6, Val.i mtd, Val.i age, Val.i emp, Val.i (k1 : Int), Val.i income, Val.i pop, Val.i (k4 : Int), Val.i sld, Val.i tax, Val.i tdd, Val.i wages, Val.i vld]]⟩ : Table) := rfl
  have hdd : Table.dropColumn (⟨["bankruptcies", "city", "credit_card_due", "dob_ssn", "hard_pulls", "loan_amnt", "loan_int_rate", "loan_intent", "location_type", "missed_payments_1y", "missed_payments_2y", "missed_payments_6m", "mortgage_due", "person_age", "person_emp_length", "person_home_ownership", "person_income", "population", "state", "student_loan_due", "tax_returns_filed", "total_debt_due", "total_wages", "vehicle_loan_due"], [[Val.i bk, Val.i (k3 : Int), Val.i ccd, Val.s dob, Val.i hp, Val.i amnt, Val.i rate, Val.i (k2 : Int), Val.i (k5 : Int), Val.i mp1, Val.i mp2, Val.i mp6, Val.i mtd, Val.i age, Val.i emp, Val.i (k1 : Int), Val.i income, Val.i pop, Val.i (k4 : Int), Val.i sld, Val.i tax, Val.i tdd, Val.i wages, Val.i vld]]⟩ : Table) "dob_ssn"
      = .ok (⟨["bankruptcies", "city", "credit_card_due", "hard_pulls", "loan_amnt", "loan_int_rate", "loan_intent", "location_type", "missed_payments_1y", "missed_payments_2y", "missed_payments_6m", "mortgage_due", "person_age", "person_emp_length", "person_home_ownership", "person_income", "population", "state", "student_loan_due", "tax_returns_filed", "total_debt_due", "total_wages", "vehicle_loan_due"], [List.map Val.i [bk, (k3 : Int), ccd, hp, amnt, rate, (k2 : Int), (k5 : Int), mp1, mp2, mp6, mtd, age, emp, (k1 : Int), income, pop, (k4 : Int), sld, tax, tdd, wages, vld]]⟩ : Table) := rfl
  have hasm : assemble_serving_frame m [("zipcode", [Val.i zip]), ("dob_ssn", [Val.s dob]), ("person_age", [Val.i age]), ("person_income", [Val.i income]), ("person_home_ownership", [Val.s own]), ("person_emp_length", [Val.i emp]), ("loan_intent", [Val.s intent]), ("loan_amnt", [Val.i amnt]), ("loan_int_rate", [Val.i rate]), ("city", [Val.s city]), ("state", [Val.s st]), ("location_type", [Val.s loc]), ("tax_returns_filed", [Val.i tax]), ("population", [Val.i pop]), ("total_wages", [Val.i wages]), ("credit_card_due", [Val.i ccd]), ("mortgage_due", [Val.i mtd]), ("student_loan_due", [Val.i sld]), ("vehicle_loan_due", [Val.i vld]), ("hard_pulls", [Val.i hp]), ("missed_payments_2y", [Val.i mp2]), ("missed_payments_1y", [Val.i mp1]), ("missed_payments_6m", [Val.i mp6]), ("bankruptcies", [Val.i bk]), ("total_debt_due", [Val.i tdd])]
      = .ok (⟨["bankruptcies", "city", "credit_card_due", "hard_pulls", "loan_amnt", "loan_int_rate", "loan_intent", "location_type", "missed_payments_1y", "missed_payments_2y", "missed_payments_6m", "mortgage_due", "person_age", "person_emp_length", "person_home_ownership", "person_income", "population", "state", "student_loan_due", "tax_returns_filed", "total_debt_due", "total_wages", "vehicle_loan_due"], [List.map Val.i [bk, (k3 : Int), ccd, hp, amnt, rate, (k2 : Int), (k5 : Int), mp1, mp2, mp6, mtd, age, emp, (k1 : Int), income, pop, (k4 : Int), sld, tax, tdd, wages, vld]]⟩ : Table) := by
    simp only [assemble_serving_frame, hfrom, happ, hsort, hdz, hdd,
      Bind.bind, Except.bind]
  obtain ⟨y, hy, hymem⟩ := @evalTree_ok_of_wf 23 f.classes_.length f.tree hwf
    (List.map Val.i [bk, (k3 : Int), ccd, hp, amnt, rate, (k2 : Int), (k5 : Int), mp1, mp2, mp6, mtd, age, emp, (k1 : Int), income, pop, (k4 : Int), sld, tax, tdd, wages, vld]) f.classes_ rfl rfl
    (fun v hv => by
      obtain ⟨x, _, rfl⟩ := List.mem_map.mp hv
      exact ⟨x, rfl⟩)
  have hcp : clfPredict m.classifier (⟨["bankruptcies", "city", "credit_card_due", "hard_pulls", "loan_amnt", "loan_int_rate", "loan_intent", "location_type", "missed_payments_1y", "missed_payments_2y", "missed_payments_6m", "mortgage_due", "person_age", "person_emp_length", "person_home_ownership", "person_income", "population", "state", "student_loan_due", "tax_returns_filed", "total_debt_due", "total_wages", "vehicle_loan_due"], [List.map Val.i [bk, (k3 : Int), ccd, hp, amnt, rate, (k2 : Int), (k5 : Int), mp1, mp2, mp6, mtd, age, emp, (k1 : Int), income, pop, (k4 : Int), sld, tax, tdd, wages, vld]]⟩ : Table)
      = .ok [y] := by
    rw [hclf]
    rw [show clfPredict ⟨some f⟩ (⟨["bankruptcies", "city", "credit_card_due", "hard_pulls", "loan_amnt", "loan_int_rate", "loan_intent", "location_type", "missed_payments_1y", "missed_payments_2y", "missed_payments_6m", "mortgage_due", "person_age", "person_emp_length", "person_home_ownership", "person_income", "population", "state", "student_loan_due", "tax_returns_filed", "total_debt_due", "total_wages", "vehicle_loan_due"], [List.map Val.i [bk, (k3 : Int), ccd, hp, amnt, rate, (k2 : Int), (k5 : Int), mp1, mp2, mp6, mtd, age, emp, (k1 : Int), income, pop, (k4 : Int), sld, tax, tdd, wages, vld]]⟩ : Table)
        = (if f.n_features = 23 then
            listMapE (fun r => evalTree f.classes_ r f.tree) [List.map Val.i [bk, (k3 : Int), ccd, hp, amnt, rate, (k2 : Int), (k5 : Int), mp1, mp2, mp6, mtd, age, emp, (k1 : Int), income, pop, (k4 : Int), sld, tax, tdd, wages, vld]]
          else .error .valueError) from rfl]
    rw [if_pos hnf]
    simp only [listMapE, hy, Bind.bind, Except.bind]
  refine ⟨y, ?_, hymem⟩
  simp only [predict,
    show get_entity_keys (uiRequest zip dob age income own emp intent amnt rate) = Except.ok (Val.i zip, Val.s dob, Val.i amnt)
      from rfl,
    Bind.bind, Except.bind, hfs, hmerge, hasm, hcp, List.getElem?_cons_zero]


theorem predict_fresh_notFitted
    (fs : Val → Val → Val → List (String × List Val))
    (zip : Int) (dob : String) (age income : Int) (own : String) (emp : Int)
    (intent : String) (amnt : Int) (rate : Int)
    (city st loc : String)
    (tax pop wages ccd mtd sld vld hp mp2 mp1 mp6 bk tdd : Int)
    (hfs : fs (Val.i zip) (Val.s dob) (Val.i amnt) = uiFeatureVector (Val.i zip) (Val.s dob) (Val.i amnt) city st loc tax pop wages ccd mtd sld vld hp mp2 mp1 mp6 bk tdd) :
    predict fs (initModel none none) (uiRequest zip dob age income own emp intent amnt rate)
      = .error .notFittedError := by
  simp only [predict,
    show get_entity_keys (uiRequest zip dob age income own emp intent amnt rate) = Except.ok (Val.i zip, Val.s dob, Val.i amnt)
      from rfl,
    Bind.bind, Except.bind, hfs]
  rfl


theorem predict_multirow_valueError
    (fs : Val → Val → Val → List (String × List Val))
    (m : CreditScoringModel)
    (zip1 zip2 : Int) (dob1 dob2 : String) (age1 age2 income1 income2 : Int)
    (own1 own2 : String) (emp1 emp2 : Int) (intent1 intent2 : String)
    (amnt1 amnt2 : Int) (rate1 rate2 : Int)
    (city st loc : String)
    (tax pop wages ccd mtd sld vld hp mp2 mp1 mp6 bk tdd : Int)
    (hfs : fs (Val.i zip1) (Val.s dob1) (Val.i amnt1) = uiFeatureVector (Val.i zip1) (Val.s dob1) (Val.i amnt1) city st loc tax pop wages ccd mtd sld vld hp mp2 mp1 mp6 bk tdd) :
    predict fs m (uiRequest2 zip1 zip2 dob1 dob2 age1 age2 income1 income2 own1 own2 emp1 emp2 intent1 intent2 amnt1 amnt2 rate1 rate2) = .error .valueError := by
  simp only [predict,
    show get_entity_keys (uiRequest2 zip1 zip2 dob1 dob2 age1 age2 income1 income2 own1 own2 emp1 emp2 intent1 intent2 amnt1 amnt2 rate1 rate2)
      = Except.ok (Val.i zip1, Val.s dob1, Val.i amnt1) from rfl,
    Bind.bind, Except.bind, hfs]
  rfl

/-! ### Classifier-fit and training lemmas -/

theorem clfFit_ok_shape {build : Table → List Int → DTree} {X : Table}
    {y : List Int} {c : DecisionTreeClassifier} (h : clfFit build X y = .ok c) :
    c = ⟨some ⟨X.cols.length, npUniqueInt y, build X y⟩⟩ := by
  simp only [clfFit] at h
  split at h
  · cases h
    rfl
  · cases h

theorem npUniqueInt_mem {y : List Int} {c : Int} (h : c ∈ npUniqueInt y) :
    c ∈ y := by
  unfold npUniqueInt at h
  exact List.mem_dedup.mp ((List.perm_insertionSort _ _).mem_iff.mp h)

theorem train_ok_trained {build : Table → List Int → DTree}
    {hs : Table → List String → Table} {m : CreditScoringModel} {loans : Table}
    {m' : CreditScoringModel} {a1 a2 : List Tok}
    (h : train build hs m loans = .ok (m', a1, a2)) :
    is_model_trained m' = true := by
  simp only [train] at h
  obtain ⟨q, hq, h2⟩ := bind_ok_iff.mp h
  obtain ⟨X, Y2, enc, art⟩ := q
  obtain ⟨X2, hX2, h3⟩ := bind_ok_iff.mp h2
  obtain ⟨y, hy, h4⟩ := bind_ok_iff.mp h3
  obtain ⟨clf, hclf, h5⟩ := bind_ok_iff.mp h4
  cases h5
  rw [clfFit_ok_shape hclf]
  rfl

/-- C2: on a freshly constructed pipeline (no persisted artifacts) a
well-formed request fails with the not-fitted failure — the
`NotFittedError` the specification calls `ModelNotTrained` — and no
default prediction is returned; after one successful `train`,
`is_model_trained` reports true, and `predict` on a well-formed request
whose categorical values lie in the fitted vocabularies (with the trained
tree matching the 23-column serving frame) succeeds. -/
theorem claim_C2_readiness_gating
    (fs : Val → Val → Val → List (String × List Val))
    (zip : Int) (dob : String) (age income : Int) (own : String) (emp : Int)
    (intent : String) (amnt : Int) (rate : Int)
    (city st loc : String)
    (tax pop wages ccd mtd sld vld hp mp2 mp1 mp6 bk tdd : Int)
    (hfs : fs (Val.i zip) (Val.s dob) (Val.i amnt)
      = uiFeatureVector (Val.i zip) (Val.s dob) (Val.i amnt) city st loc tax pop
          wages ccd mtd sld vld hp mp2 mp1 mp6 bk tdd) :
    predict fs (initModel none none)
        (uiRequest zip dob age income own emp intent amnt rate)
      = .error .notFittedError ∧
    (∀ (build : Table → List Int → DTree) (hs : Table → List String → Table)
        (loans : Table) (m' : CreditScoringModel) (a1 a2 : List Tok),
      train build hs (initModel none none) loans = .ok (m', a1, a2) →
        is_model_trained m' = true) ∧
    (∀ (m' : CreditScoringModel) (f : FittedTree) (v1 v2 v3 v4 v5 : List String)
        (k1 k2 k3 k4 k5 : Nat),
      is_model_trained m' = true →
      m'.encoder.categories_ = some [v1, v2, v3, v4, v5] →
      idxOf? own v1 = some k1 → idxOf? intent v2 = some k2 →
      idxOf? city v3 = some k3 → idxOf? st v4 = some k4 →
      idxOf? loc v5 = some k5 →
      m'.classifier.fitted = some f → f.n_features = 23 →
      DTree.wf 23 f.classes_.length f.tree = true →
      ∃ y, predict fs m' (uiRequest zip dob age income own emp intent amnt rate)
        = .ok y) := by
  refine ⟨predict_fresh_notFitted fs zip dob age income own emp intent amnt rate
    city st loc tax pop wages ccd mtd sld vld hp mp2 mp1 mp6 bk tdd hfs, ?_, ?_⟩
  · intro build hs loans m' a1 a2 htr
    exact train_ok_trained htr
  · intro m' f v1 v2 v3 v4 v5 k1 k2 k3 k4 k5 _ hcats h1 h2 h3 h4 h5 hfit hnf hwf
    obtain ⟨y, hy, _⟩ := predict_ok_ui fs m' f zip dob age income own emp intent
      amnt rate city st loc tax pop wages ccd mtd sld vld hp mp2 mp1 mp6 bk tdd
      v1 v2 v3 v4 v5 k1 k2 k3 k4 k5 hfs hcats h1 h2 h3 h4 h5 hfit hnf hwf
    exact ⟨y, hy⟩

/-- C2 witness: the readiness-gating statement at the concrete example:
the fresh pipeline rejects `reqEx` with the not-fitted failure, training
on `loansEx` yields a ready pipeline `mEx`, and `predict` then succeeds. -/
theorem claim_C2_witness :
    predict fsEx (initModel none none) reqEx = .error .notFittedError ∧
    is_model_trained mEx = true ∧
    (∃ y, predict fsEx mEx reqEx = .ok y) := by
  have h := claim_C2_readiness_gating fsEx 94109 "d1" 25 120000 "RENT" 12
    "PERSONAL" 10000 12 "SF" "CA" "urban" 100 1000 500 5 10 2 3 1 0 0 0 0 30 rfl
  refine ⟨h.1, ?_, ?_⟩
  · exact h.2.1 buildEx hsEx loansEx mEx (joblib_dump_clf mEx.classifier)
      (joblib_dump_enc encEx) (by decide)
  · exact h.2.2 mEx ⟨23, [0], DTree.leaf 0⟩ ["RENT"] ["PERSONAL"] ["SF"] ["CA"]
      ["urban"] 0 0 0 0 0 rfl rfl (by decide) (by decide) (by decide) (by decide)
      (by decide) rfl rfl (by decide)

/-- C4 counterexample: on a trained pipeline, a well-formed two-row
request does not return one label per row: `predict` fails with
`ValueError`, because the single-entity online lookup returns one-element
columns that cannot be merged with the two-element request columns into a
frame. -/
theorem claim_C4_cex :
    is_model_trained mEx = true ∧
    predict fsEx mEx
        (uiRequest2 94109 94110 "d1" "d2" 25 30 120000 90000 "RENT" "RENT"
          12 24 "PERSONAL" "PERSONAL" 10000 5000 12 11)
      = .error .valueError := by decide

/-- C4 amended: a trained classifier only ever emits labels drawn from its
training label set, so with the binary `loan_status` target a successful
single-row `predict` returns one label in `{0, 1}`; a multi-row request,
however, is not scored row-by-row — `predict` fails with `ValueError`
while merging the single-row online lookup into the multi-row frame. -/
theorem claim_C4_label_shape :
    (∀ (build : Table → List Int → DTree) (X : Table) (y : List Int)
        (c : DecisionTreeClassifier) (ft : FittedTree),
      clfFit build X y = .ok c → c.fitted = some ft →
        ∀ lbl ∈ ft.classes_, lbl ∈ y) ∧
    (∀ (fs : Val → Val → Val → List (String × List Val))
        (m : CreditScoringModel) (f : FittedTree)
        (zip : Int) (dob : String) (age income : Int) (own : String) (emp : Int)
        (intent : String) (amnt : Int) (rate : Int)
        (city st loc : String)
        (tax pop wages ccd mtd sld vld hp mp2 mp1 mp6 bk tdd : Int)
        (v1 v2 v3 v4 v5 : List String) (k1 k2 k3 k4 k5 : Nat),
      fs (Val.i zip) (Val.s dob) (Val.i amnt)
        = uiFeatureVector (Val.i zip) (Val.s dob) (Val.i amnt) city st loc tax
            pop wages ccd mtd sld vld hp mp2 mp1 mp6 bk tdd →
      m.encoder.categories_ = some [v1, v2, v3, v4, v5] →
      idxOf? own v1 = some k1 → idxOf? intent v2 = some k2 →
      idxOf? city v3 = some k3 → idxOf? st v4 = some k4 →
      idxOf? loc v5 = some k5 →
      m.classifier.fitted = some f → f.n_features = 23 →
      DTree.wf 23 f.classes_.length f.tree = true →
      (∀ lbl ∈ f.classes_, lbl = 0 ∨ lbl = 1) →
      ∃ y, predict fs m (uiRequest zip dob age income own emp intent amnt rate)
        = .ok y ∧ (y = 0 ∨ y = 1)) ∧
    (∀ (fs : Val → Val → Val → List (String × List Val))
        (m : CreditScoringModel)
        (zip1 zip2 : Int) (dob1 dob2 : String) (age1 age2 income1 income2 : Int)
        (own1 own2 : String) (emp1 emp2 : Int) (intent1 intent2 : String)
        (amnt1 amnt2 : Int) (rate1 rate2 : Int)
        (city st loc : String)
        (tax pop wages ccd mtd sld vld hp mp2 mp1 mp6 bk tdd : Int),
      fs (Val.i zip1) (Val.s dob1) (Val.i amnt1)
        = uiFeatureVector (Val.i zip1) (Val.s dob1) (Val.i amnt1) city st loc
            tax pop wages ccd mtd sld vld hp mp2 mp1 mp6 bk tdd →
      predict fs m (uiRequest2 zip1 zip2 dob1 dob2 age1 age2 income1 income2
          own1 own2 emp1 emp2 intent1 intent2 amnt1 amnt2 rate1 rate2)
        = .error .valueError) := by
  refine ⟨?_, ?_, ?_⟩
  · intro build X y c ft hfit hft lbl hmem
    rw [clfFit_ok_shape hfit] at hft
    cases hft
    exact npUniqueInt_mem hmem
  · intro fs m f zip dob age income own emp intent amnt rate city st loc tax pop
      wages ccd mtd sld vld hp mp2 mp1 mp6 bk tdd v1 v2 v3 v4 v5 k1 k2 k3 k4 k5
      hfs hcats h1 h2 h3 h4 h5 hfit hnf hwf hbin
    obtain ⟨y, hy, hymem⟩ := predict_ok_ui fs m f zip dob age income own emp
      intent amnt rate city st loc tax pop wages ccd mtd sld vld hp mp2 mp1 mp6
      bk tdd v1 v2 v3 v4 v5 k1 k2 k3 k4 k5 hfs hcats h1 h2 h3 h4 h5 hfit hnf hwf
    exact ⟨y, hy, hbin y hymem⟩
  · intro fs m zip1 zip2 dob1 dob2 age1 age2 income1 income2 own1 own2 emp1 emp2
      intent1 intent2 amnt1 amnt2 rate1 rate2 city st loc tax pop wages ccd mtd
      sld vld hp mp2 mp1 mp6 bk tdd hfs
    exact predict_multirow_valueError fs m zip1 zip2 dob1 dob2 age1 age2 income1
      income2 own1 own2 emp1 emp2 intent1 intent2 amnt1 amnt2 rate1 rate2 city
      st loc tax pop wages ccd mtd sld vld hp mp2 mp1 mp6 bk tdd hfs

/-- C4 witness: the amended statement at the concrete example — the
trained label set is `{0}` ⊆ `{0, 1}` from the corpus, the single-row
prediction returns a binary label, and the two-row request fails. -/
theorem claim_C4_witness :
    (0 : Int) ∈ ([0] : List Int) ∧
    (∃ y, predict fsEx mEx reqEx = .ok y ∧ (y = 0 ∨ y = 1)) ∧
    predict fsEx mEx
        (uiRequest2 94109 94110 "d1" "d2" 25 30 120000 90000 "RENT" "RENT"
          12 24 "PERSONAL" "PERSONAL" 10000 5000 12 11)
      = .error .valueError := by
  have h := claim_C4_label_shape
  refine ⟨?_, ?_, ?_⟩
  · exact h.1 buildEx tblC8 [0] ⟨some ⟨6, [0], DTree.leaf 0⟩⟩ ⟨6, [0], DTree.leaf 0⟩
      (by decide) rfl 0 (by decide)
  · exact h.2.1 fsEx mEx ⟨23, [0], DTree.leaf 0⟩ 94109 "d1" 25 120000 "RENT" 12
      "PERSONAL" 10000 12 "SF" "CA" "urban" 100 1000 500 5 10 2 3 1 0 0 0 0 30
      ["RENT"] ["PERSONAL"] ["SF"] ["CA"] ["urban"] 0 0 0 0 0 rfl rfl
      (by decide) (by decide) (by decide) (by decide) (by decide) rfl rfl
      (by decide) (by decide)
  · exact h.2.2 fsEx mEx 94109 94110 "d1" "d2" 25 30 120000 90000 "RENT" "RENT"
      12 24 "PERSONAL" "PERSONAL" 10000 5000 12 11 "SF" "CA" "urban" 100 1000
      500 5 10 2 3 1 0 0 0 0 30 rfl

/-! ### Dictionary-key lemmas for the merge step -/

theorem map_fst_override (d1 d2 : List (String × List Val)) :
    (d1.map (fun p =>
      match List.lookup p.1 d2 with
      | some v => (p.1, v)
      | none => p)).map Prod.fst = d1.map Prod.fst := by
  induction d1 with
  | nil => rfl
  | cons p d ih =>
    simp only [List.map_cons, ih]
    congr 1
    cases List.lookup p.1 d2 <;> rfl

theorem map_fst_filter_keys (g : String → Bool) (d : List (String × List Val)) :
    (d.filter (fun q => g q.1)).map Prod.fst = (d.map Prod.fst).filter g := by
  induction d with
  | nil => rfl
  | cons p d ih =>
    by_cases h : g p.1 = true
    · simp [List.filter_cons, h, ih]
    · simp [List.filter_cons, h, ih]

theorem dictKeys_dictUpdate (d1 d2 : List (String × List Val)) :
    dictKeys (dictUpdate d1 d2)
      = dictKeys d1
        ++ (dictKeys d2).filter (fun k => !((dictKeys d1).contains k)) := by
  simp only [dictUpdate, dictKeys, List.map_append]
  rw [map_fst_override]
  congr 1
  exact map_fst_filter_keys (fun k => !((d1.map Prod.fst).contains k)) d2

/-- C1: for every training corpus carrying the application attributes next
to the identifier/timestamp/label columns, and every well-formed request
carrying the same attributes next to the two entity keys, the column list
of the `train_X` frame built by the batch historical-join path (after its
six drops and sort) is identical — same set and same ascending order — to
the column list of the frame the serving path feeds the classifier (after
the merge, sort, and its two drops), and that shared list is sorted
ascending. -/
theorem claim_C1_column_alignment
    (attrs : List String) (loans : Table)
    (hs : Table → List String → Table) (m : CreditScoringModel)
    (e : OrdinalEncoder) (request fv : List (String × List Val))
    (X : Table) (Y : List Val) (enc : OrdinalEncoder) (art : List Tok) (F : Table)
    (hdisj2 : ∀ a ∈ attrs, a ∉ feastColNames)
    (hamnt : "loan_amnt" ∈ attrs)
    (hl : loans.cols.Perm (bookkeepingCols ++ attrs))
    (hh : (hs loans feast_features).cols.Perm (loans.cols ++ feastColNames))
    (hr : (dictKeys request).Perm ("zipcode" :: "dob_ssn" :: attrs))
    (hfv : (dictKeys fv).Perm
      ("zipcode" :: "dob_ssn" :: "loan_amnt" :: feastColNames))
    (htr : get_training_features hs e loans = .ok (X, Y, enc, art))
    (hsv : assemble_serving_frame m (dictUpdate request fv) = .ok F) :
    X.cols = F.cols ∧ List.Sorted (fun a b => strLe a b = true) X.cols := by
  simp only [get_training_features] at htr
  obtain ⟨q1, hfit, htr2⟩ := bind_ok_iff.mp htr
  obtain ⟨enc1, art1⟩ := q1
  obtain ⟨encoded, hencD, htr3⟩ := bind_ok_iff.mp htr2
  obtain ⟨d1, hd1, htr4⟩ := bind_ok_iff.mp htr3
  obtain ⟨d2, hd2, htr5⟩ := bind_ok_iff.mp htr4
  obtain ⟨d3, hd3, htr6⟩ := bind_ok_iff.mp htr5
  obtain ⟨d4, hd4, htr7⟩ := bind_ok_iff.mp htr6
  obtain ⟨d5, hd5, htr8⟩ := bind_ok_iff.mp htr7
  obtain ⟨d6, hd6, htr9⟩ := bind_ok_iff.mp htr8
  obtain ⟨tX, htX, htr10⟩ := bind_ok_iff.mp htr9
  obtain ⟨yIdx, hyIdx, htr11⟩ := bind_ok_iff.mp htr10
  obtain ⟨tY, htY, htr12⟩ := bind_ok_iff.mp htr11
  simp only [Except.ok.injEq, Prod.mk.injEq] at htr12
  obtain ⟨rfl, rfl, rfl, rfl⟩ := htr12
  have hc0 : encoded.cols = (hs loans feast_features).cols := apply_ok_cols hencD
  have hc1 : d1.cols = encoded.cols.erase "loan_status" := by
    simpa only [target] using dropColumn_ok_cols hd1
  have hc2 : d2.cols = d1.cols.erase "event_timestamp" := dropColumn_ok_cols hd2
  have hc3 : d3.cols = d2.cols.erase "created_timestamp" := dropColumn_ok_cols hd3
  have hc4 : d4.cols = d3.cols.erase "loan_id" := dropColumn_ok_cols hd4
  have hc5 : d5.cols = d4.cols.erase "zipcode" := dropColumn_ok_cols hd5
  have hc6 : d6.cols = d5.cols.erase "dob_ssn" := dropColumn_ok_cols hd6
  have hXc : tX.cols = pySorted d6.cols := by
    simp only [Table.reindexSorted] at htX
    exact selectCols_ok_cols htX
  have pH : (hs loans feast_features).cols.Perm
      (bookkeepingCols ++ (attrs ++ feastColNames)) := by
    refine hh.trans ?_
    have h := hl.append_right feastColNames
    rwa [List.append_assoc] at h
  have hliterase :
      (((((((bookkeepingCols ++ (attrs ++ feastColNames)).erase
        "loan_status").erase "event_timestamp").erase "created_timestamp").erase
        "loan_id").erase "zipcode").erase "dob_ssn") = attrs ++ feastColNames := by
    rw [List.erase_append_left (attrs ++ feastColNames)
      (show ("loan_status" : String) ∈ bookkeepingCols from by decide)]
    rw [show bookkeepingCols.erase "loan_status"
      = ["loan_id", "zipcode", "dob_ssn", "event_timestamp", "created_timestamp"]
      from by decide]
    rw [List.erase_append_left (attrs ++ feastColNames)
      (show ("event_timestamp" : String)
        ∈ ["loan_id", "zipcode", "dob_ssn", "event_timestamp", "created_timestamp"]
        from by decide)]
    rw [show (["loan_id", "zipcode", "dob_ssn", "event_timestamp",
        "created_timestamp"] : List String).erase "event_timestamp"
      = ["loan_id", "zipcode", "dob_ssn", "created_timestamp"] from by decide]
    rw [List.erase_append_left (attrs ++ feastColNames)
      (show ("created_timestamp" : String)
        ∈ ["loan_id", "zipcode", "dob_ssn", "created_timestamp"] from by decide)]
    rw [show (["loan_id", "zipcode", "dob_ssn", "created_timestamp"] :
        List String).erase "created_timestamp"
      = ["loan_id", "zipcode", "dob_ssn"] from by decide]
    rw [List.erase_append_left (attrs ++ feastColNames)
      (show ("loan_id" : String) ∈ ["loan_id", "zipcode", "dob_ssn"]
        from by decide)]
    rw [show (["loan_id", "zipcode", "dob_ssn"] : List String).erase "loan_id"
      = ["zipcode", "dob_ssn"] from by decide]
    rw [List.erase_append_left (attrs ++ feastColNames)
      (show ("zipcode" : String) ∈ ["zipcode", "dob_ssn"] from by decide)]
    rw [show (["zipcode", "dob_ssn"] : List String).erase "zipcode"
      = ["dob_ssn"] from by decide]
    rw [List.erase_append_left (attrs ++ feastColNames)
      (show ("dob_ssn" : String) ∈ ["dob_ssn"] from by decide)]
    rfl
  have hd6p : d6.cols.Perm (attrs ++ feastColNames) := by
    rw [hc6, hc5, hc4, hc3, hc2, hc1, hc0]
    have hp := ((((((pH.erase "loan_status").erase "event_timestamp").erase
      "created_timestamp").erase "loan_id").erase "zipcode").erase "dob_ssn")
    rwa [hliterase] at hp
  have hXeq : tX.cols = pySorted (attrs ++ feastColNames) := by
    rw [hXc, pySorted_eq_of_perm hd6p]
  simp only [assemble_serving_frame] at hsv
  obtain ⟨frame, hfrom, hsv2⟩ := bind_ok_iff.mp hsv
  obtain ⟨encF, hencF, hsv3⟩ := bind_ok_iff.mp hsv2
  obtain ⟨sfd, hsfd, hsv4⟩ := bind_ok_iff.mp hsv3
  obtain ⟨g1, hg1, hsv5⟩ := bind_ok_iff.mp hsv4
  obtain ⟨g2, hg2, hsv6⟩ := bind_ok_iff.mp hsv5
  cases hsv6
  have hfc : frame.cols = dictKeys (dictUpdate request fv) := fromDict_ok_cols hfrom
  have hec : encF.cols = frame.cols := apply_ok_cols hencF
  have hsc : sfd.cols = pySorted encF.cols := by
    simp only [Table.reindexSorted] at hsfd
    exact selectCols_ok_cols hsfd
  have hg1c : g1.cols = sfd.cols.erase "zipcode" := dropColumn_ok_cols hg1
  have hFc : F.cols = g1.cols.erase "dob_ssn" := dropColumn_ok_cols hg2
  have hqz : "zipcode" ∈ dictKeys request := hr.mem_iff.mpr (by simp)
  have hqd : "dob_ssn" ∈ dictKeys request := hr.mem_iff.mpr (by simp)
  have hqa : "loan_amnt" ∈ dictKeys request := hr.mem_iff.mpr (by simp [hamnt])
  have hfeast_not : ∀ k ∈ feastColNames, k ∉ dictKeys request := by
    intro k hk hmem
    rcases List.mem_cons.mp (hr.mem_iff.mp hmem) with rfl | hmem2
    · revert hk
      decide
    rcases List.mem_cons.mp hmem2 with rfl | hmem3
    · revert hk
      decide
    · exact hdisj2 k hmem3 hk
  have heval : ("zipcode" :: "dob_ssn" :: "loan_amnt" :: feastColNames).filter
      (fun k => !((dictKeys request).contains k)) = feastColNames := by
    have hrest : List.filter (fun k => !decide (k ∈ dictKeys request)) feastColNames
        = feastColNames :=
      List.filter_eq_self.mpr (fun k hk => by simp [hfeast_not k hk])
    simp [List.filter_cons, hqz, hqd, hqa, hrest]
  have hfilter : ((dictKeys fv).filter
      (fun k => !((dictKeys request).contains k))).Perm feastColNames := by
    refine (List.Perm.filter _ hfv).trans ?_
    rw [heval]
  have hmergedp : (dictKeys (dictUpdate request fv)).Perm
      (("zipcode" :: "dob_ssn" :: attrs) ++ feastColNames) := by
    rw [dictKeys_dictUpdate]
    exact hr.append hfilter
  have hFperm : F.cols.Perm (attrs ++ feastColNames) := by
    rw [hFc, hg1c, hsc, hec, hfc]
    have p2 := (((pySorted_perm (dictKeys (dictUpdate request fv))).trans
      hmergedp).erase "zipcode").erase "dob_ssn"
    rw [show (("zipcode" :: "dob_ssn" :: attrs) ++ feastColNames)
      = "zipcode" :: "dob_ssn" :: (attrs ++ feastColNames) from rfl] at p2
    rwa [List.erase_cons_head, List.erase_cons_head] at p2
  have hFsorted : List.Sorted (fun a b => strLe a b = true) F.cols := by
    rw [hFc, hg1c, hsc]
    exact sorted_erase _ (sorted_erase _ (pySorted_sorted _))
  have hXsorted : List.Sorted (fun a b => strLe a b = true) tX.cols := by
    rw [hXeq]
    exact pySorted_sorted _
  have hXperm : tX.cols.Perm (attrs ++ feastColNames) := by
    rw [hXeq]
    exact pySorted_perm _
  exact ⟨List.eq_of_perm_of_sorted (hXperm.trans hFperm.symm) hXsorted hFsorted,
    hXsorted⟩

/-- C1 witness: on the concrete corpus `loansEx` and request `reqEx`, the
batch `train_X` frame and the serving frame are the same 23-column sorted
table `servedEx`, so the alignment theorem instantiates to it. -/
theorem claim_C1_witness :
    servedEx.cols = servedEx.cols ∧
    List.Sorted (fun a b => strLe a b = true) servedEx.cols := by
  exact claim_C1_column_alignment attrsEx loansEx hsEx mEx ⟨none⟩ reqEx
    (fsEx (Val.i 94109) (Val.s "d1") (Val.i 10000))
    servedEx [Val.i 0] encEx (joblib_dump_enc encEx) servedEx
    (by decide) (by decide) (by decide) (by decide) (by decide) (by decide)
    (by decide) (by decide)
